import Mathlib

/-!
# Verification of the DocZilla services against their specification

Shallow embedding of the DocZilla backend services:

* `src/app/services/file_io.py`   — `generate_timestamped_filename`, `save_data_file`
* `src/app/services/fragments.py` — `split_data_file`, `_split_by_rows`, `_split_by_size`
* `src/app/services/data_ops.py`  — `_merge_with_similarity`, `remove_empty_rows_columns`,
                                    `detect_outliers`, `standardize_urls`
* `src/app/services/doc_ops.py`   — `extract_text`, `InMemorySearchIndex`
* `src/app/utils/validators.py`   — `sanitize_filename`
* the persistent search index (referenced by the pages/tests, modelled from the spec)

Python strings are embedded as `List Char` (`PyStr`); Python floats are
embedded as `ℚ` (the verified properties are independent of rounding);
pandas cells are an explicit sum type with a missing value (`PyVal`).
External libraries (pandas joins, rapidfuzz similarity, PyPDF2/pdfminer,
the file system) are either modelled explicitly or abstracted as
parameters, as noted at each definition.
-/

/-- Python strings, embedded as lists of characters. -/
abbrev PyStr := List Char

/-- Coerce a Lean string literal into the embedding. -/
def pstr (s : String) : PyStr := s.data

/-- ASCII model of Python `str.lower` on one character. -/
def pyLowerChar (c : Char) : Char :=
  if 'A' ≤ c ∧ c ≤ 'Z' then Char.ofNat (c.toNat + 32) else c

/-- ASCII model of Python `str.lower`. -/
def pyLower (s : PyStr) : PyStr := s.map pyLowerChar

/-- ASCII model of Python's default `str.strip` character class. -/
def pyIsSpace (c : Char) : Bool :=
  c = ' ' ∨ c = '\t' ∨ c = '\n' ∨ c = '\r' ∨ c = '\x0b' ∨ c = '\x0c'

/-- Python `str.strip()` (leading and trailing whitespace). -/
def pyStrip (s : PyStr) : PyStr :=
  ((s.dropWhile pyIsSpace).reverse.dropWhile pyIsSpace).reverse

/-- Python `str.strip(chars)` for an explicit character set. -/
def pyStripChars (cs : List Char) (s : PyStr) : PyStr :=
  ((s.dropWhile (· ∈ cs)).reverse.dropWhile (· ∈ cs)).reverse

/-- Python `s.startswith(p)`. -/
def pyStartsWith (s p : PyStr) : Bool := p.isPrefixOf s

/-- Decimal digit character. -/
def digitChar (n : Nat) : Char := Char.ofNat (48 + n)

/-- Python `format(c, "03d")`: decimal, left-padded with zeros to width 3. -/
def pad3 (c : Nat) : PyStr :=
  if c < 1000 then
    [digitChar (c / 100 % 10), digitChar (c / 10 % 10), digitChar (c % 10)]
  else
    (Nat.repr c).data

/-- `pathlib.PurePath.suffix` of a file name (final component, no separators):
the part from the last dot, provided that dot is neither the first nor the
last character. -/
def pySuffix (name : PyStr) : PyStr :=
  match name.reverse.takeWhile (· ≠ '.') , name.reverse.dropWhile (· ≠ '.') with
  | _, [] => []                      -- no dot at all
  | tail, _ :: front =>
      if front = [] then []          -- the only dot is the leading character
      else if tail = [] then []      -- the last dot is the trailing character
      else '.' :: tail.reverse

/-- `pathlib.PurePath.stem` of a file name: the name minus `pySuffix`. -/
def pyStem (name : PyStr) : PyStr :=
  name.take (name.length - (pySuffix name).length)

/-- Python slice `s[:m]` for a possibly negative bound `m`. -/
def pySlice (s : PyStr) (m : Int) : PyStr :=
  if 0 ≤ m then s.take m.toNat
  else s.take (s.length - min s.length (-m).toNat)

/-- `src/app/utils/validators.py`, `sanitize_filename`:
`re.sub(r'[^\w\-_.]', '_', filename)` (ASCII model of `\w`), then
`.strip('. ')`, then the empty result is replaced by `"file"`. -/
def sanitize_filename (filename : PyStr) : PyStr :=
  let sanitized := filename.map (fun c =>
    if c.isAlphanum ∨ c = '_' ∨ c = '-' ∨ c = '.' then c else '_')
  let sanitized := pyStripChars ['.', ' '] sanitized
  if sanitized = [] then pstr "file" else sanitized

/-- `f"{base}_{timestamp}.{extension}"`. -/
def candName (base ts ext : PyStr) : PyStr := base ++ '_' :: (ts ++ '.' :: ext)

/-- `f"{base}_{timestamp}_{counter:03d}.{extension}"`. -/
def seqName (base ts ext : PyStr) (c : Nat) : PyStr :=
  base ++ '_' :: (ts ++ '_' :: (pad3 c ++ '.' :: ext))

/-- The `while Path(...).exists(): counter += 1` loop of
`generate_timestamped_filename`, embedded with explicit fuel (the source
loop is unbounded; the fuel is large enough whenever fewer than 999
colliding names exist, the regime of the theorems below). -/
def seqLoop (fs : List PyStr) (mk : Nat → PyStr) : Nat → Nat → Nat
  | 0, c => c
  | fuel + 1, c => if mk c ∈ fs then seqLoop fs mk fuel (c + 1) else c

/-- `src/app/services/file_io.py`, `generate_timestamped_filename`, up to
(but not including) the final length check: the sanitized, timestamped and,
on collision, sequence-suffixed candidate name. The file system is
abstracted as the list `fs` of existing file names and
`datetime.now().strftime("%Y%m%d_%H%M%S")` as the string `ts`. -/
def pre_truncation_name (fs : List PyStr) (ts : PyStr)
    (original_name extension : PyStr) : PyStr :=
  let base := sanitize_filename (pyStem original_name)
  let filename := candName base ts extension
  if filename ∈ fs then
    seqName base ts extension
      (seqLoop fs (seqName base ts extension) (fs.length + 1000) 1)
  else filename

/-- `src/app/services/file_io.py`, `generate_timestamped_filename`:
the candidate name above, truncated via `base[:200 - len(timestamp) -
len(extension) - 5]` when it exceeds 200 characters. -/
def generate_timestamped_filename (fs : List PyStr) (ts : PyStr)
    (original_name extension : PyStr) : PyStr :=
  let base := sanitize_filename (pyStem original_name)
  let filename := pre_truncation_name fs ts original_name extension
  if 200 < filename.length then
    let maxBase : Int := 200 - ts.length - extension.length - 5
    candName (pySlice base maxBase) ts extension
  else filename

/-- The name `f"{original_file.stem}_part{i:03d}.{extension}"` used by the
fragmentation service. -/
def part_filename (stem ext : PyStr) (i : Nat) : PyStr :=
  stem ++ pstr "_part" ++ pad3 i ++ '.' :: ext

/-- `src/app/services/fragments.py`, `_split_by_rows`: the saved parts as
(name, row chunk) pairs; `total_chunks = (len(df) + rows_per_file - 1) //
rows_per_file`, chunk `i` is `df.iloc[i*r : min(i*r + r, len(df))]`. -/
def split_by_rows (rows : List α) (stem ext : PyStr) (rows_per_file : Nat) :
    List (PyStr × List α) :=
  let total_chunks := (rows.length + rows_per_file - 1) / rows_per_file
  (List.range total_chunks).map (fun i =>
    (part_filename stem ext (i + 1), (rows.drop (i * rows_per_file)).take rows_per_file))

/-- Errors surfaced while embedding `_split_by_size` (wrapped into
`OperationalError` by `split_data_file`): Python's `ZeroDivisionError` from
`sample_size_bytes / sample_size`, and `IsADirectoryError` from
`temp_file.unlink()` on a path that `save_data_file` created as a
directory. -/
inductive SplitErr where
  | zeroDivision
  | isADirectory
deriving DecidableEq

/-- The row-accumulation loop of `_split_by_size`: rows are appended to
`cur` (running byte total `size`) until adding the next row would exceed
`target`, at which point the chunk is flushed; the final partial chunk is
always flushed. -/
def size_chunk_loop (bpr target : ℚ) : List α → List α → ℚ → List (List α)
  | [], cur, _ => if cur.isEmpty then [] else [cur]
  | row :: rest, cur, size =>
      if target < size + bpr ∧ ¬ cur.isEmpty then
        cur :: size_chunk_loop bpr target rest [row] bpr
      else size_chunk_loop bpr target rest (cur ++ [row]) (size + bpr)

/-- The chunks of `_split_by_size` paired with their 1-based
`<stem>_partNNN.<ext>` names. -/
def size_chunks_named (rows : List α) (stem ext : PyStr) (bpr target : ℚ) :
    List (PyStr × List α) :=
  (size_chunk_loop bpr target rows [] 0).enum.map
    (fun p => (part_filename stem ext (p.1 + 1), p.2))

/-- `src/app/services/fragments.py`, `_split_by_size`.
`target` is `target_size_mb * 1024 * 1024` and `sample_size_bytes` the
measured on-disk size of the saved sample (both embedded as `ℚ`; the
verified facts do not depend on float rounding).
The sample is saved via `save_data_file(sample_df, output_dir /
".temp_sample", extension)`; since `Path(".temp_sample").suffix` is empty,
`save_data_file` generates a timestamped name *under* that path and creates
`.temp_sample` itself as a directory, so the later `temp_file.unlink()`
raises `IsADirectoryError`. -/
def split_by_size (rows : List α) (stem ext : PyStr)
    (target sample_size_bytes : ℚ) : Except SplitErr (List (PyStr × List α)) :=
  let sample_size := min 1000 rows.length
  let tempSampleIsDir := pySuffix (pstr ".temp_sample") = []
  if sample_size = 0 then .error .zeroDivision
  else
    let bytes_per_row := sample_size_bytes / (sample_size : ℚ)
    if tempSampleIsDir then .error .isADirectory
    else .ok (size_chunks_named rows stem ext bytes_per_row target)

/-- `src/app/services/fragments.py`, `split_data_file` restricted to
`split_method="size"`: the dispatch check `split_method == "size" and
target_size_mb` plus the wrapping of any unexpected exception into an
`OperationalError`. -/
def split_data_file_size (rows : List α) (stem ext : PyStr)
    (target_size_mb sample_size_bytes : ℚ) : Except PyStr (List (PyStr × List α)) :=
  if target_size_mb ≠ 0 then
    match split_by_size rows stem ext (target_size_mb * 1024 * 1024) sample_size_bytes with
    | .ok parts => .ok parts
    | .error _ => .error (pstr "File split failed")
  else .error (pstr "Invalid split configuration")

/-- Environment for `src/app/services/doc_ops.py`: the optional external
libraries (`PyPDF2`, `pdfminer`, `python-docx`) and the file system are
abstracted as fallible functions; `Except.error` models a raised
exception. A `PyPDF2` page result of `.ok none` models `page.extract_text()`
returning `None` (the source substitutes `""` via `or ""`), `.error` a
per-page extraction failure. -/
structure DocEnv where
  pdfReader : Option (PyStr → Except Unit (List (Except Unit (Option PyStr))))
  pdfminerExtract : Option (PyStr → Except Unit (Option PyStr))
  docxRead : Option (PyStr → Except Unit (List PyStr))
  readText : PyStr → Except Unit PyStr
  fileExists : PyStr → Bool

/-- `doc_ops._extract_text_from_pdf`: try `PyPDF2` (each page individually
guarded, `"\n".join`), fall back to `pdfminer`, fall back to `""`; every
failure is swallowed. -/
def extract_text_from_pdf (env : DocEnv) (path : PyStr) : PyStr :=
  let viaPyPDF2 : Option PyStr :=
    match env.pdfReader with
    | none => none
    | some reader =>
        match reader path with
        | .error _ => none
        | .ok pages =>
            some (List.intercalate (pstr "\n") (pages.map (fun pg =>
              match pg with
              | .error _ => []
              | .ok none => []
              | .ok (some t) => t)))
  match viaPyPDF2 with
  | some t => t
  | none =>
      match env.pdfminerExtract with
      | none => []
      | some pm =>
          match pm path with
          | .error _ => []
          | .ok none => []
          | .ok (some t) => t

/-- `doc_ops._extract_text_from_docx`: paragraph texts joined by newlines,
any failure swallowed to `""`. -/
def extract_text_from_docx (env : DocEnv) (path : PyStr) : PyStr :=
  match env.docxRead with
  | none => []
  | some d =>
      match d path with
      | .error _ => []
      | .ok paras => List.intercalate (pstr "\n") paras

/-- `doc_ops.extract_text`: dispatch on the lower-cased extension; only the
`.txt` branch reads the file without a guard, every other branch swallows
failures. -/
def extract_text (env : DocEnv) (path : PyStr) : Except Unit PyStr :=
  let suffix := pyLower (pySuffix path)
  if suffix = pstr ".pdf" then .ok (extract_text_from_pdf env path)
  else if suffix = pstr ".docx" ∧ env.docxRead.isSome then
    .ok (extract_text_from_docx env path)
  else if suffix = pstr ".txt" then env.readText path
  else
    match env.readText path with
    | .ok t => .ok t
    | .error _ => .ok []

/-- Python `str.find(sub, start)` scanning helper: the least absolute index
`≥ start` at which `q` occurs in the scanned tail. -/
def strFindAux (q : PyStr) : List Char → Nat → Option Nat
  | [], i => if q = [] then some i else none
  | c :: rest, i =>
      if q.isPrefixOf (c :: rest) then some i else strFindAux q rest (i + 1)

/-- Python `s.find(q, start)` (`none` for `-1`). -/
def strFind (s q : PyStr) (start : Nat) : Option Nat :=
  strFindAux q (s.drop start) start

/-- One snippet of `InMemorySearchIndex.search`: `text[max(0, idx-80) :
min(len(text), idx+len(q)+80)]` with newlines flattened to spaces. -/
def search_snippet (text : PyStr) (ql : PyStr) (idx : Nat) : PyStr :=
  let s := idx - 80
  let e := min text.length (idx + ql.length + 80)
  ((text.drop s).take (e - s)).map (fun c => if c = '\n' then ' ' else c)

/-- The snippet-collection loop of `InMemorySearchIndex.search`: scan
forward past each match, stop at 3 snippets or when no further match
exists. -/
def snippet_loop (text lower_text ql : PyStr) : Nat → Nat → List PyStr
  | 0, _ => []
  | fuel + 1, start =>
      match strFind lower_text ql start with
      | none => []
      | some idx =>
          search_snippet text ql idx ::
            snippet_loop text lower_text ql fuel (idx + ql.length)

/-- All (up to 3) snippets for one document. -/
def search_snippets (text ql : PyStr) : List PyStr :=
  snippet_loop text (pyLower text) ql 3 0

/-- Python `dict` assignment `d[k] = v`: overwrite in place, else append. -/
def dict_set (entries : List (PyStr × PyStr)) (k v : PyStr) : List (PyStr × PyStr) :=
  if entries.any (fun e => e.1 = k) then
    entries.map (fun e => if e.1 = k then (k, v) else e)
  else entries ++ [(k, v)]

/-- `doc_ops.InMemorySearchIndex.search` over the name→text entries:
blank queries return nothing; a document is returned iff its text is
non-empty and contains the stripped query case-insensitively, paired with
its snippets. -/
def index_search (entries : List (PyStr × PyStr)) (query : PyStr) :
    List (PyStr × List PyStr) :=
  let q := pyStrip query
  if q = [] then []
  else
    entries.filterMap (fun e =>
      if e.2 = [] then none
      else if pyLower q <:+: pyLower e.2 then
        some (e.1, search_snippets e.2 (pyLower q))
      else none)

/-- The file store backing the persistent index: directory path → entries. -/
abbrev SearchStore := List (PyStr × List (PyStr × PyStr))

/-- Entries held under one directory of the store. -/
def store_entries (store : SearchStore) (dir : PyStr) : List (PyStr × PyStr) :=
  ((store.find? (fun e => e.1 = dir)).map Prod.snd).getD []

/-- Replace the entries held under one directory of the store. -/
def store_set (store : SearchStore) (dir : PyStr) (es : List (PyStr × PyStr)) :
    SearchStore :=
  if store.any (fun e => e.1 = dir) then
    store.map (fun e => if e.1 = dir then (dir, es) else e)
  else store ++ [(dir, es)]

/-- Modelled from the spec: `PersistentSearchIndex` is referenced by
`src/app/pages/document_handler.py` and exercised by
`tests/unit/test_doc_ops.py` but its definition is absent from the
available sources. Per §4.9 of the spec it carries the caller-supplied
directory path and is otherwise stateless: all data lives in the backing
store, so independently constructed instances over one directory share
entries, and its search semantics match `InMemorySearchIndex` exactly. -/
structure PersistentSearchIndex where
  dir : PyStr

/-- Modelled from the spec: `PersistentSearchIndex.add` writes the document
under the index's directory in the backing store (overwriting any previous
text for that name). -/
def PersistentSearchIndex.add (idx : PersistentSearchIndex) (store : SearchStore)
    (name text : PyStr) : SearchStore :=
  store_set store idx.dir (dict_set (store_entries store idx.dir) name text)

/-- Modelled from the spec: `PersistentSearchIndex.search` searches the
entries under the index's directory with the in-memory semantics. -/
def PersistentSearchIndex.search (idx : PersistentSearchIndex) (store : SearchStore)
    (query : PyStr) : List (PyStr × List PyStr) :=
  index_search (store_entries store idx.dir) query

/-- Modelled from the spec: `PersistentSearchIndex.clear` empties the
entries under the index's directory. -/
def PersistentSearchIndex.clear (idx : PersistentSearchIndex) (store : SearchStore) :
    SearchStore :=
  store_set store idx.dir []

/-- A pandas cell: missing (`NaN`), a string, a number (floats embedded as
`ℚ`; the verified properties are independent of rounding), or a boolean. -/
inductive PyVal where
  | na
  | vstr (s : PyStr)
  | vnum (q : ℚ)
  | vbool (b : Bool)
deriving DecidableEq

/-- Python `str(cell)` as produced by `astype(str)` / `str(...)`: `NaN`
stringifies to `"nan"`; numbers via their decimal representation. -/
def pyStrOf : PyVal → PyStr
  | .na => pstr "nan"
  | .vstr s => s
  | .vnum q => (reprStr q).data
  | .vbool b => if b then pstr "True" else pstr "False"

/-- A pandas DataFrame: named columns over rows of cells (row `i` holds the
cell of column `j` at position `j`). -/
structure DataFrame where
  cols : List PyStr
  rows : List (List PyVal)
deriving DecidableEq

/-- Position of a column label (first occurrence). -/
def colIdx (cols : List PyStr) (c : PyStr) : Option Nat := cols.findIdx? (· = c)

/-- The cell of row `r` under column `c` (`none` when the label is absent,
modelling a pandas `KeyError` site, or when the row is short). -/
def lookupCell (cols : List PyStr) (r : List PyVal) (c : PyStr) : Option PyVal :=
  (colIdx cols c).bind (fun i => r.get? i)

/-- One column of a frame, as the per-row optional cells. -/
def colCells (df : DataFrame) (c : PyStr) : List (Option PyVal) :=
  df.rows.map (fun r => lookupCell df.cols r c)

/-- pandas column assignment `df[name] = cells`: overwrite in place when the
label exists, else append as the last column. -/
def dfSetCol (df : DataFrame) (name : PyStr) (cells : List PyVal) : DataFrame :=
  match colIdx df.cols name with
  | some i => ⟨df.cols, (df.rows.zip cells).map (fun p => p.1.set i p.2)⟩
  | none => ⟨df.cols ++ [name], (df.rows.zip cells).map (fun p => p.1 ++ [p.2])⟩

/-- One step of Python `str.replace(old, new)` with explicit fuel (one unit
per consumed character; `s.length` suffices for non-empty `old`). -/
def pyReplaceAux (old new : PyStr) : Nat → PyStr → PyStr
  | 0, s => s
  | fuel + 1, s =>
      match s with
      | [] => []
      | c :: rest =>
          if old.isPrefixOf (c :: rest) then
            new ++ pyReplaceAux old new fuel ((c :: rest).drop old.length)
          else c :: pyReplaceAux old new fuel rest

/-- Python `s.replace(old, new)` for non-empty `old`: every non-overlapping
occurrence, scanned left to right. -/
def pyReplaceAll (s old new : PyStr) : PyStr :=
  if old = [] then s else pyReplaceAux old new s.length s

/-- `urllib.parse.urlparse(u).netloc` for a URL carrying an
`http://`/`https://` scheme (the only shape reaching the parse in
`standardize_urls`): everything after the scheme up to `/`, `?` or `#`. -/
def parseNetloc (u : PyStr) : PyStr :=
  let rest :=
    if (pstr "https://").isPrefixOf u then u.drop 8
    else if (pstr "http://").isPrefixOf u then u.drop 7
    else u
  rest.takeWhile (fun c => ¬ (c = '/' ∨ c = '?' ∨ c = '#'))

/-- `data_ops.standardize_urls`, inner `format_url`, for
`base_domain_only=True` (the branch this claim exercises): empty/missing
cells map to `""`; otherwise prefix `https://` when no scheme is present,
parse, and return `parsed.netloc.lower().replace('www.', '')`. -/
def format_url_base_domain (v : PyVal) : PyStr :=
  if v = .na ∨ v = .vstr [] then []
  else
    let s := pyStrip (pyStrOf v)
    let s2 :=
      if pyStartsWith s (pstr "http://") ∨ pyStartsWith s (pstr "https://") then s
      else pstr "https://" ++ s
    pyReplaceAll (pyLower (parseNetloc s2)) (pstr "www.") []

/-- `data_ops.standardize_urls` with `base_domain_only=True`: the formatted
values written into the `<column>_formatted` output column. -/
def standardize_urls_base (df : DataFrame) (column : PyStr) : DataFrame :=
  dfSetCol df (column ++ pstr "_formatted")
    ((colCells df column).map (fun oc => .vstr (format_url_base_domain (oc.getD .na))))

/-- The claim's "already-normalized" input shape: a non-empty lower-cased
host name — lower-case letters, digits, dots, hyphens — containing no
`"www."`. -/
abbrev normalizedHost (s : PyStr) : Prop :=
  s ≠ []
  ∧ (∀ c ∈ s, ('a' ≤ c ∧ c ≤ 'z') ∨ ('0' ≤ c ∧ c ≤ '9') ∨ c = '.' ∨ c = '-')
  ∧ ¬ (pstr "www." <:+: s)

/-- Stringified, trimmed cell as used by `remove_empty_rows_columns`
(`row.astype(str).str.strip()`; missing cells stringify to `"nan"`). -/
def cellStripped (v : PyVal) : PyStr := pyStrip (pyStrOf v)

/-- All cells of a row are missing (`dropna(how='all')`). -/
def rowAllNa (r : List PyVal) : Bool := r.all (fun v => v = .na)

/-- All cells of a row stringify-and-trim to the empty string. -/
def rowAllEmpty (r : List PyVal) : Bool := r.all (fun v => cellStripped v = [])

/-- All cells of a row stringify-and-trim to `"nan"`. -/
def rowAllNan (r : List PyVal) : Bool := r.all (fun v => cellStripped v = pstr "nan")

/-- `data_ops.remove_empty_rows_columns`: drop all-missing rows, then rows
whose cells all trim to `""` or all trim to `"nan"`; then the same two
steps column-wise over the remaining rows; return the cleaned frame and the
counts of rows and columns removed. Columns are addressed positionally
(`getD j .na`); an `all` over zero remaining rows is vacuously true,
matching pandas. -/
def remove_empty_rows_columns (df : DataFrame) : DataFrame × Nat × Nat :=
  let r1 := df.rows.filter (fun r => !(rowAllNa r))
  let r2 := r1.filter (fun r => !(rowAllEmpty r || rowAllNan r))
  let keep1 := (List.range df.cols.length).filter
    (fun j => !(r2.all (fun r => r.getD j .na = .na)))
  let keep := keep1.filter (fun j =>
    !(r2.all (fun r => cellStripped (r.getD j .na) = [])
      || r2.all (fun r => cellStripped (r.getD j .na) = pstr "nan")))
  (⟨keep.map (fun j => df.cols.getD j []),
    r2.map (fun r => keep.map (fun j => r.getD j .na))⟩,
   df.rows.length - r2.length, df.cols.length - keep.length)

/-- pandas `is_numeric_dtype` per cell: numbers, booleans and `NaN` live in
numeric dtypes; strings do not. -/
def isNumericCell : PyVal → Bool
  | .na => true
  | .vnum _ => true
  | .vbool _ => true
  | .vstr _ => false

/-- pandas `pd.api.types.is_numeric_dtype(df[col])`. -/
def numericCol (df : DataFrame) (c : PyStr) : Bool :=
  (colCells df c).all (fun oc => isNumericCell (oc.getD .na))

/-- Numeric value of a cell (`NaN`/strings have none; booleans count as
0/1 as in pandas arithmetic). -/
def cellRat : PyVal → Option ℚ
  | .vnum q => some q
  | .vbool b => some (if b then 1 else 0)
  | _ => none

/-- `z_scores = abs((x - mean) / std) > threshold` over `ℚ`: `mean`/`std`
skip missing values (pandas default), `std` is the sample deviation
(`ddof=1`).  The square-root-free test `(x-m)² (n-1) > t² S` is equivalent
for `t ≥ 0`; with fewer than two values or zero variance the float code
compares against `NaN` and flags nothing (`NaN > t` is false; zero
variance forces `x = m`, hence `0/0 = NaN`); for `t < 0` any finite
z-score (necessarily `≥ 0`) exceeds it. -/
def zscore_flags (vals : List (Option ℚ)) (t : ℚ) : List Bool :=
  let xs := vals.filterMap id
  let n := xs.length
  if n < 2 then vals.map (fun _ => false)
  else
    let m := xs.sum / (n : ℚ)
    let S := (xs.map (fun x => (x - m) ^ 2)).sum
    vals.map (fun ox =>
      match ox with
      | none => false
      | some x =>
          if S = 0 then false
          else if t < 0 then true
          else decide ((x - m) ^ 2 * ((n : ℚ) - 1) > t ^ 2 * S))

/-- Insertion into a sorted list. -/
def sortedInsert (x : ℚ) : List ℚ → List ℚ
  | [] => [x]
  | y :: ys => if x ≤ y then x :: y :: ys else y :: sortedInsert x ys

/-- Insertion sort (ascending), used for quantiles. -/
def sortRat (l : List ℚ) : List ℚ := l.foldr sortedInsert []

/-- pandas `Series.quantile(p)` with linear interpolation over the sorted
non-missing values. -/
def quantileQ (xs : List ℚ) (p : ℚ) : ℚ :=
  let h : ℚ := p * ((xs.length : ℚ) - 1)
  let k : Nat := h.floor.toNat
  let a := xs.getD k 0
  let b := xs.getD (k + 1) a
  a + (h - (k : ℚ)) * (b - a)

/-- IQR flags: `x < Q1 - t·IQR ∨ x > Q3 + t·IQR`; missing values and an
all-missing column flag nothing (`NaN` comparisons are false). -/
def iqr_flags (vals : List (Option ℚ)) (t : ℚ) : List Bool :=
  let xs := sortRat (vals.filterMap id)
  if xs.isEmpty then vals.map (fun _ => false)
  else
    let q1 := quantileQ xs (1 / 4)
    let q3 := quantileQ xs (3 / 4)
    let lower := q1 - t * (q3 - q1)
    let upper := q3 + t * (q3 - q1)
    vals.map (fun ox =>
      match ox with
      | none => false
      | some x => decide (x < lower ∨ upper < x))

/-- One iteration of the `for col in columns` loop of
`data_ops.detect_outliers`: absent or non-numeric columns change nothing;
otherwise the boolean flags (computed from the *original* frame `df`) are
written into `<col>_outlier` of the accumulator. -/
def detect_outliers_step (df : DataFrame) (method : PyStr) (t : ℚ)
    (acc : DataFrame) (c : PyStr) : DataFrame :=
  if c ∈ df.cols ∧ numericCol df c then
    let vals := (colCells df c).map (fun oc => cellRat (oc.getD PyVal.na))
    let flags := if method = pstr "zscore" then zscore_flags vals t else iqr_flags vals t
    dfSetCol acc (c ++ pstr "_outlier") (flags.map PyVal.vbool)
  else acc

/-- `data_ops.detect_outliers`. -/
def detect_outliers (df : DataFrame) (columns : List PyStr) (method : PyStr)
    (t : ℚ) : DataFrame :=
  columns.foldl (detect_outliers_step df method t) df

/-- Specification helper: the listed columns `detect_outliers` actually
flags (present in the frame and numeric). -/
def outlier_columns (df : DataFrame) (columns : List PyStr) : List PyStr :=
  columns.filter (fun c => c ∈ df.cols ∧ numericCol df c)

/-- Model of `pd.merge(df1, df2, onCols=on_cols, how=how, suffixes=('_x','_y'))`
(an external pandas call): key columns once, then non-key columns of each
side, suffixed onCols name clashes; rows pair up onCols equal key tuples, with the
unmatched side NA-filled for left/right/outer joins. Only its interface
matters to the claims; no theorem inspects its internals. -/
def pdMerge (df1 df2 : DataFrame) (onCols : List PyStr) (how : PyStr) : DataFrame :=
  let nk1 := df1.cols.filter (fun c => !(decide (c ∈ onCols)))
  let nk2 := df2.cols.filter (fun c => !(decide (c ∈ onCols)))
  let keyOf1 := fun r => onCols.map (fun c => lookupCell df1.cols r c)
  let keyOf2 := fun r => onCols.map (fun c => lookupCell df2.cols r c)
  let keyVals := fun r => onCols.map (fun c => (lookupCell df1.cols r c).getD .na)
  let keyVals2 := fun r => onCols.map (fun c => (lookupCell df2.cols r c).getD .na)
  let val1 := fun r => nk1.map (fun c => (lookupCell df1.cols r c).getD .na)
  let val2 := fun r => nk2.map (fun c => (lookupCell df2.cols r c).getD .na)
  let innerRows := df1.rows.flatMap (fun r1 =>
    (df2.rows.filter (fun r2 => keyOf2 r2 = keyOf1 r1)).map (fun r2 =>
      keyVals r1 ++ val1 r1 ++ val2 r2))
  let leftOnly := (df1.rows.filter (fun r1 =>
      df2.rows.all (fun r2 => !(decide (keyOf2 r2 = keyOf1 r1))))).map (fun r1 =>
    keyVals r1 ++ val1 r1 ++ nk2.map (fun _ => PyVal.na))
  let rightOnly := (df2.rows.filter (fun r2 =>
      df1.rows.all (fun r1 => !(decide (keyOf1 r1 = keyOf2 r2))))).map (fun r2 =>
    keyVals2 r2 ++ nk1.map (fun _ => PyVal.na) ++ val2 r2)
  ⟨onCols ++ nk1.map (fun c => if c ∈ nk2 then c ++ pstr "_x" else c)
      ++ nk2.map (fun c => if c ∈ nk1 then c ++ pstr "_y" else c),
   if how = pstr "left" then innerRows ++ leftOnly
   else if how = pstr "right" then innerRows ++ rightOnly
   else if how = pstr "outer" then innerRows ++ leftOnly ++ rightOnly
   else innerRows⟩

/-- `df1[~df1[on_cols[0]].isin(df2[on_cols[0]])]` for inner/left joins, else
an empty frame: rows unmatched by *first-key value membership only*. -/
def unmatched_left (df1 df2 : DataFrame) (k : PyStr) (how : PyStr) :
    List (List PyVal) :=
  if how = pstr "inner" ∨ how = pstr "left" then
    df1.rows.filter (fun r =>
      !(decide (lookupCell df1.cols r k ∈
        df2.rows.map (fun r2 => lookupCell df2.cols r2 k))))
  else []

/-- `df2[~df2[on_cols[0]].isin(df1[on_cols[0]])]` for inner/right/outer
joins, else an empty frame. -/
def unmatched_right (df1 df2 : DataFrame) (k : PyStr) (how : PyStr) :
    List (List PyVal) :=
  if how = pstr "inner" ∨ how = pstr "right" ∨ how = pstr "outer" then
    df2.rows.filter (fun r =>
      !(decide (lookupCell df2.cols r k ∈
        df1.rows.map (fun r1 => lookupCell df1.cols r1 k))))
  else []

/-- The mean similarity of two rows over the chosen columns: columns present
onCols both sides contribute `sim(str(v1), str(v2))` (missing values as the
empty string); `np.mean(scores) if scores else 0`. The scorer `sim` models
`rapidfuzz.fuzz.token_set_ratio / 100` abstractly. -/
def row_score (sim : PyStr → PyStr → ℚ) (cols1 cols2 : List PyStr)
    (simcols : List PyStr) (r1 r2 : List PyVal) : ℚ :=
  let scores := simcols.filterMap (fun c =>
    match lookupCell cols1 r1 c, lookupCell cols2 r2 c with
    | some v1, some v2 =>
        some (sim (if v1 = .na then [] else pyStrOf v1)
                  (if v2 = .na then [] else pyStrOf v2))
    | _, _ => none)
  if scores.isEmpty then 0 else scores.sum / (scores.length : ℚ)

/-- The best-candidate loop of `_merge_with_similarity`:
`if avg_score >= threshold and avg_score > best_score` updates the running
best match. -/
def best_match_loop (th : ℚ) (score : List PyVal → ℚ) :
    List (List PyVal) → Option (List PyVal) → ℚ → Option (List PyVal) × ℚ
  | [], best, bs => (best, bs)
  | r2 :: rest, best, bs =>
      if th ≤ score r2 ∧ bs < score r2 then
        best_match_loop th score rest (some r2) (score r2)
      else best_match_loop th score rest best bs

/-- `pd.concat([matched_df1, matched_df2], axis=1)`: the accepted fuzzy
pairs side by side. Concatenation along `axis=1` performs no column
alignment, so the result carries *both* frames' full column lists verbatim
— the key columns (and any shared labels) appear twice. -/
def simPairsFrame (df1 df2 : DataFrame)
    (pairs : List (List PyVal × List PyVal)) : DataFrame :=
  ⟨df1.cols ++ df2.cols, pairs.map (fun p => p.1 ++ p.2)⟩

/-- The column union pandas computes for `pd.concat(..., axis=0)` of frames
with differing column lists: each label repeated with its maximal
multiplicity. The label order (first appearance, left list first) is a
model choice; pandas may order the distinct labels differently, which can
only exchange the two `pdConcatRows` outcomes below (duplicate-preserving
success vs. the realignment error) for exotic multi-label overlaps, neither
of which the theorems below depend on. -/
def pdUnionCols (l r : List PyStr) : List PyStr :=
  ((l ++ r).eraseDups).flatMap (fun c => List.replicate (max (l.count c) (r.count c)) c)

/-- pandas realignment of a frame's rows to a target column list, as done
inside `pd.concat(..., axis=0)`: a frame whose columns already equal the
target is taken as is (duplicates and all); a frame with *unique* columns is
reindexed label by label (labels absent from the source become `NaN`, and a
label occurring several times in the target replicates the source column);
reindexing a frame with duplicated column labels raises
`InvalidIndexError`, modelled as `none`. -/
def pdReindexRows (cols : List PyStr) (rows : List (List PyVal))
    (target : List PyStr) : Option (List (List PyVal)) :=
  if cols = target then some rows
  else if cols.Nodup then
    some (rows.map (fun r => target.map (fun c => (lookupCell cols r c).getD .na)))
  else none

/-- Model of `pd.concat([a, b], ignore_index=True)` (external pandas call):
frames with identical column lists are stacked directly, duplicate labels
preserved; otherwise both frames are realigned to the column union, and the
whole call raises (`.error`, an `InvalidIndexError` that
`merge_dataframes` wraps into an `OperationalError`) as soon as a frame
with duplicated column labels needs realignment. -/
def pdConcatRows (a b : DataFrame) : Except Unit DataFrame :=
  if a.cols = b.cols then .ok ⟨a.cols, a.rows ++ b.rows⟩
  else
    let u := pdUnionCols a.cols b.cols
    match pdReindexRows a.cols a.rows u, pdReindexRows b.cols b.rows u with
    | some ra, some rb => .ok ⟨u, ra ++ rb⟩
    | _, _ => .error ()

/-- `on_cols[0]`: the first chosen key column. -/
def first_key (onCols : List PyStr) : PyStr := onCols.headD []

/-- `data_ops._merge_with_similarity` (the `use_similarity` path of
`merge_dataframes`): exact join first; unmatched sides by first-key value
membership; every unmatched left row paired with the best-scoring unmatched
right row at or above the threshold; accepted pairs concatenated side by
side and appended after the exact matches via
`pd.concat([exact_match, similarity_merged], ignore_index=True)`, whose
error (`.error`) propagates to `merge_dataframes` and becomes an
`OperationalError`. -/
def merge_with_similarity (sim : PyStr → PyStr → ℚ) (df1 df2 : DataFrame)
    (onCols : List PyStr) (how : PyStr) (threshold : ℚ)
    (similarity_columns : List PyStr) : Except Unit DataFrame :=
  let exact := pdMerge df1 df2 onCols how
  let k := first_key onCols
  let u1 := unmatched_left df1 df2 k how
  let u2 := unmatched_right df1 df2 k how
  if u1 ≠ [] ∧ u2 ≠ [] then
    let pairs := u1.filterMap (fun r1 =>
      ((best_match_loop threshold
          (row_score sim df1.cols df2.cols similarity_columns r1) u2 none 0).1).map
        (fun r2 => (r1, r2)))
    if pairs ≠ [] then pdConcatRows exact (simPairsFrame df1 df2 pairs) else .ok exact
  else .ok exact

/-- The claim's reading of the unmatched-left rows: present on the left,
absent on the right *on the chosen key column(s)* (all of them), for
inner/left joins. Stated from the spec's words, for comparison with
`unmatched_left` (which consults only the first key column). -/
def spec_unmatched_left (df1 df2 : DataFrame) (onCols : List PyStr) (how : PyStr) :
    List (List PyVal) :=
  if how = pstr "inner" ∨ how = pstr "left" then
    df1.rows.filter (fun r1 =>
      df2.rows.all (fun r2 =>
        !(decide (onCols.map (fun c => lookupCell df2.cols r2 c) =
          onCols.map (fun c => lookupCell df1.cols r1 c)))))
  else []

/-- The claim's reading of the unmatched-right rows (inner/right/outer),
on all chosen key columns. -/
def spec_unmatched_right (df1 df2 : DataFrame) (onCols : List PyStr) (how : PyStr) :
    List (List PyVal) :=
  if how = pstr "inner" ∨ how = pstr "right" ∨ how = pstr "outer" then
    df2.rows.filter (fun r2 =>
      df1.rows.all (fun r1 =>
        !(decide (onCols.map (fun c => lookupCell df1.cols r1 c) =
          onCols.map (fun c => lookupCell df2.cols r2 c)))))
  else []

/-- Joining the row-count chunks of a list recovers a take of the list. -/
theorem chunks_flatten {α : Type} (r : Nat) (t : Nat) (xs : List α) :
    ((List.range t).map (fun i => (xs.drop (i * r)).take r)).flatten = xs.take (t * r) := by
  induction t with
  | zero => simp
  | succ t ih =>
      rw [List.range_succ, List.map_append, List.flatten_append, ih]
      simp only [List.map_cons, List.map_nil, List.flatten_cons, List.flatten_nil,
        List.append_nil]
      rw [Nat.succ_mul, List.take_add]

/-- **C7.** For a source with `n` rows and a positive row target `r`,
`_split_by_rows` yields exactly `⌈n / r⌉` parts (the count `(n + r - 1) / r`,
pinned by `n ≤ parts·r < n + r`), named `<stem>_partNNN.<ext>` with 1-based
zero-padded numbering, every part except possibly the last holding exactly
`r` rows, and the parts concatenating back to the source rows (hence the
row counts of the parts sum to `n`). -/
theorem split_by_rows_correct {α : Type} (rows : List α) (stem ext : PyStr)
    (r : Nat) (hr : 0 < r) :
    (split_by_rows rows stem ext r).length = (rows.length + r - 1) / r
    ∧ rows.length ≤ (split_by_rows rows stem ext r).length * r
    ∧ (split_by_rows rows stem ext r).length * r < rows.length + r
    ∧ ((split_by_rows rows stem ext r).map Prod.snd).flatten = rows
    ∧ (((split_by_rows rows stem ext r).map Prod.snd).map List.length).sum = rows.length
    ∧ (∀ i, i < (split_by_rows rows stem ext r).length →
        ((split_by_rows rows stem ext r).getD i ([], [])).1 = part_filename stem ext (i + 1))
    ∧ (∀ i, i + 1 < (split_by_rows rows stem ext r).length →
        ((split_by_rows rows stem ext r).getD i ([], [])).2.length = r) := by
  have hlen : (split_by_rows rows stem ext r).length = (rows.length + r - 1) / r := by
    simp [split_by_rows]
  have hdm := Nat.div_add_mod (rows.length + r - 1) r
  have hmod : (rows.length + r - 1) % r < r := Nat.mod_lt _ hr
  have h1 : rows.length ≤ (rows.length + r - 1) / r * r := by
    rw [Nat.mul_comm]; omega
  have h2 : (rows.length + r - 1) / r * r < rows.length + r := by
    rw [Nat.mul_comm]; omega
  have hflat : ((split_by_rows rows stem ext r).map Prod.snd).flatten = rows := by
    simp only [split_by_rows, List.map_map]
    have hcomp : (Prod.snd ∘ fun i =>
        (part_filename stem ext (i + 1), (rows.drop (i * r)).take r)) =
        (fun i => (rows.drop (i * r)).take r) := rfl
    rw [hcomp, chunks_flatten]
    exact List.take_of_length_le h1
  refine ⟨hlen, by rw [hlen]; exact h1, by rw [hlen]; exact h2, hflat, ?_, ?_, ?_⟩
  · rw [← List.length_flatten, hflat]
  · intro i hi
    rw [hlen] at hi
    simp only [split_by_rows]
    rw [List.getD_eq_getElem _ _ (by simpa using hi)]
    simp
  · intro i hi
    rw [hlen] at hi
    simp only [split_by_rows]
    rw [List.getD_eq_getElem _ _ (by simpa using Nat.lt_of_succ_lt hi)]
    simp only [List.getElem_map, List.getElem_range]
    rw [List.length_take, List.length_drop]
    have hq1 : (rows.length + r - 1) / r - 1 + 1 = (rows.length + r - 1) / r := by omega
    have hAB : ((rows.length + r - 1) / r - 1) * r + r = (rows.length + r - 1) / r * r := by
      calc ((rows.length + r - 1) / r - 1) * r + r
          = (((rows.length + r - 1) / r - 1) + 1) * r := (Nat.succ_mul _ _).symm
        _ = (rows.length + r - 1) / r * r := by rw [hq1]
    have h3 : ((rows.length + r - 1) / r - 1) * r < rows.length := by omega
    have hle : (i + 1) * r ≤ ((rows.length + r - 1) / r - 1) * r :=
      Nat.mul_le_mul_right _ (by omega)
    have h5 : (i + 1) * r = i * r + r := Nat.succ_mul _ _
    omega

/-- Witness for **C7** at the spec's own example: a 1,000-row source split
at 50 rows per part. -/
theorem split_by_rows_correct_witness :
    (0 : Nat) < 50
    ∧ ((split_by_rows (List.replicate 1000 (0 : Nat)) (pstr "data") (pstr "csv") 50).length =
        ((List.replicate 1000 (0 : Nat)).length + 50 - 1) / 50
      ∧ (List.replicate 1000 (0 : Nat)).length ≤
        (split_by_rows (List.replicate 1000 (0 : Nat)) (pstr "data") (pstr "csv") 50).length * 50
      ∧ (split_by_rows (List.replicate 1000 (0 : Nat)) (pstr "data") (pstr "csv") 50).length * 50 <
        (List.replicate 1000 (0 : Nat)).length + 50
      ∧ ((split_by_rows (List.replicate 1000 (0 : Nat)) (pstr "data") (pstr "csv") 50).map
          Prod.snd).flatten = List.replicate 1000 (0 : Nat)
      ∧ (((split_by_rows (List.replicate 1000 (0 : Nat)) (pstr "data") (pstr "csv") 50).map
          Prod.snd).map List.length).sum = (List.replicate 1000 (0 : Nat)).length
      ∧ (∀ i, i < (split_by_rows (List.replicate 1000 (0 : Nat)) (pstr "data") (pstr "csv") 50).length →
          ((split_by_rows (List.replicate 1000 (0 : Nat)) (pstr "data") (pstr "csv") 50).getD i
            ([], [])).1 = part_filename (pstr "data") (pstr "csv") (i + 1))
      ∧ (∀ i, i + 1 <
            (split_by_rows (List.replicate 1000 (0 : Nat)) (pstr "data") (pstr "csv") 50).length →
          ((split_by_rows (List.replicate 1000 (0 : Nat)) (pstr "data") (pstr "csv") 50).getD i
            ([], [])).2.length = 50)) :=
  ⟨by decide, split_by_rows_correct (List.replicate 1000 (0 : Nat)) (pstr "data") (pstr "csv") 50
    (by decide)⟩

/-- The collision counter loop returns the least free counter, provided a
free counter lies within the fuel. -/
theorem seqLoop_spec (fs : List PyStr) (mk : Nat → PyStr) :
    ∀ (fuel c : Nat), (∃ k, k < fuel ∧ mk (c + k) ∉ fs) →
      mk (seqLoop fs mk fuel c) ∉ fs
      ∧ c ≤ seqLoop fs mk fuel c
      ∧ (∀ c', c ≤ c' → c' < seqLoop fs mk fuel c → mk c' ∈ fs) := by
  intro fuel
  induction fuel with
  | zero => intro c ⟨k, hk, _⟩; exact absurd hk (Nat.not_lt_zero k)
  | succ fuel ih =>
      intro c ⟨k, hk, hfree⟩
      by_cases hc : mk c ∈ fs
      · have hk0 : k ≠ 0 := by rintro rfl; simp at hfree; exact hfree hc
        have hex : ∃ k', k' < fuel ∧ mk (c + 1 + k') ∉ fs := by
          refine ⟨k - 1, by omega, ?_⟩
          have : c + 1 + (k - 1) = c + k := by omega
          rwa [this]
        obtain ⟨h1, h2, h3⟩ := ih (c + 1) hex
        rw [seqLoop, if_pos hc]
        refine ⟨h1, by omega, ?_⟩
        intro c' hle hlt
        rcases Nat.eq_or_lt_of_le hle with heq | hlt2
        · rwa [← heq]
        · exact h3 c' hlt2 hlt
      · rw [seqLoop, if_neg hc]
        exact ⟨hc, Nat.le_refl c, fun c' h1 h2 => absurd (Nat.lt_of_le_of_lt h1 h2) (lt_irrefl c)⟩

/-- `pad3` is injective below 1000. -/
theorem pad3_injOn {a b : Nat} (ha : a < 1000) (hb : b < 1000) (h : pad3 a = pad3 b) :
    a = b := by
  have hd : ∀ x : Nat, x < 10 → ∀ y : Nat, y < 10 → digitChar x = digitChar y → x = y := by decide
  rw [pad3, if_pos ha, pad3, if_pos hb] at h
  simp only [List.cons.injEq, and_true] at h
  obtain ⟨h1, h2, h3⟩ := h
  have e1 := hd _ (by omega) _ (by omega) h1
  have e2 := hd _ (by omega) _ (by omega) h2
  have e3 := hd _ (by omega) _ (by omega) h3
  omega

/-- `pad3` has length 3 below 1000. -/
theorem pad3_length {c : Nat} (hc : c < 1000) : (pad3 c).length = 3 := by
  rw [pad3, if_pos hc]; rfl

/-- `seqName` is injective in the counter below 1000. -/
theorem seqName_injOn (base ts ext : PyStr) {a b : Nat} (ha : a < 1000) (hb : b < 1000)
    (h : seqName base ts ext a = seqName base ts ext b) : a = b := by
  rw [seqName, seqName] at h
  have h2 := List.append_cancel_left h
  simp only [List.cons.injEq, true_and] at h2
  have h3 := List.append_cancel_left h2
  simp only [List.cons.injEq, true_and] at h3
  have h4 : pad3 a = pad3 b :=
    (List.append_inj h3 (by rw [pad3_length ha, pad3_length hb])).1
  exact pad3_injOn ha hb h4

/-- If at most 998 files exist, some counter in `[1, 999]` is free. -/
theorem seqName_free_exists (fs : List PyStr) (base ts ext : PyStr)
    (hfs : fs.length ≤ 998) :
    ∃ k, k < 999 ∧ seqName base ts ext (1 + k) ∉ fs := by
  by_contra hall
  push_neg at hall
  have hsub : ((List.range 999).map (fun k => seqName base ts ext (1 + k))) ⊆ fs := by
    intro x hx
    obtain ⟨k, hk, rfl⟩ := List.mem_map.mp hx
    exact hall k (List.mem_range.mp hk)
  have hnodup : ((List.range 999).map (fun k => seqName base ts ext (1 + k))).Nodup := by
    refine List.Nodup.map_on ?_ (List.nodup_range 999)
    intro a ha b hb hab
    have ha' := List.mem_range.mp ha
    have hb' := List.mem_range.mp hb
    have := seqName_injOn base ts ext (a := 1 + a) (b := 1 + b) (by omega) (by omega) hab
    omega
  have hle := (List.subperm_of_subset hnodup hsub).length_le
  simp at hle
  omega

/-- Length of `candName`. -/
theorem candName_length (base ts ext : PyStr) :
    (candName base ts ext).length = base.length + ts.length + ext.length + 2 := by
  simp [candName]; omega

/-- Length of `seqName` for counters below 1000. -/
theorem seqName_length (base ts ext : PyStr) {c : Nat} (hc : c < 1000) :
    (seqName base ts ext c).length = base.length + ts.length + ext.length + 6 := by
  simp [seqName, pad3_length hc]; omega

/-- **C1 (amended).** Provided the sanitized base, timestamp and extension
leave even a sequence-suffixed candidate within the 200-character limit
(`len(base) + len(ts) + len(ext) + 6 ≤ 200`, so the truncation branch is
never taken) and fewer than 999 files exist, `generate_timestamped_filename`
returns `<sanitized-base>_<ts>.<ext>`; if that exact name already exists it
instead returns the same name carrying the least zero-padded 3-digit
sequence suffix that names no existing file. In both cases the returned
name names no existing file. -/
theorem generate_timestamped_filename_collision_safe (fs : List PyStr)
    (ts name ext : PyStr)
    (hlen : (sanitize_filename (pyStem name)).length + ts.length + ext.length + 6 ≤ 200)
    (hfs : fs.length ≤ 998) :
    generate_timestamped_filename fs ts name ext ∉ fs
    ∧ (candName (sanitize_filename (pyStem name)) ts ext ∉ fs →
        generate_timestamped_filename fs ts name ext =
          candName (sanitize_filename (pyStem name)) ts ext)
    ∧ (candName (sanitize_filename (pyStem name)) ts ext ∈ fs →
        ∃ c, 1 ≤ c ∧ c ≤ 999
          ∧ generate_timestamped_filename fs ts name ext =
              seqName (sanitize_filename (pyStem name)) ts ext c
          ∧ seqName (sanitize_filename (pyStem name)) ts ext c ∉ fs
          ∧ (∀ c', 1 ≤ c' → c' < c → seqName (sanitize_filename (pyStem name)) ts ext c' ∈ fs)) := by
  set base := sanitize_filename (pyStem name) with hbase
  by_cases hcand : candName base ts ext ∈ fs
  · -- collision: the sequence loop runs
    obtain ⟨k, hk, hfree⟩ := seqName_free_exists fs base ts ext hfs
    have hfuel : k < fs.length + 1000 := by omega
    obtain ⟨h1, h2, h3⟩ :=
      seqLoop_spec fs (seqName base ts ext) (fs.length + 1000) 1 ⟨k, hfuel, hfree⟩
    set c := seqLoop fs (seqName base ts ext) (fs.length + 1000) 1 with hc
    have hcle : c ≤ 999 := by
      by_contra hgt
      exact hfree (h3 (1 + k) (by omega) (by omega))
    have hpre : pre_truncation_name fs ts name ext = seqName base ts ext c := by
      rw [pre_truncation_name]
      simp only [← hbase, if_pos hcand, ← hc]
    have hgen : generate_timestamped_filename fs ts name ext = seqName base ts ext c := by
      rw [generate_timestamped_filename]
      simp only [← hbase, hpre]
      rw [if_neg]
      rw [seqName_length base ts ext (by omega)]
      omega
    refine ⟨by rw [hgen]; exact h1, fun h => absurd hcand h, fun _ => ⟨c, h2, hcle, hgen, h1, ?_⟩⟩
    intro c' h1' h2'
    exact h3 c' h1' h2'
  · -- no collision: the plain timestamped name is free and short enough
    have hpre : pre_truncation_name fs ts name ext = candName base ts ext := by
      rw [pre_truncation_name]
      simp only [← hbase, if_neg hcand]
    have hgen : generate_timestamped_filename fs ts name ext = candName base ts ext := by
      rw [generate_timestamped_filename]
      simp only [← hbase, hpre]
      rw [if_neg]
      rw [candName_length]
      omega
    exact ⟨by rw [hgen]; exact hcand, fun _ => hgen, fun h => absurd h hcand⟩

/-- Witness for **C1 (amended)**: base `report`, a file store already
holding `report_20240101_120000.csv`, so the returned name is the
`_001`-suffixed one and hits no existing file. -/
theorem generate_timestamped_filename_collision_safe_witness :
    ((sanitize_filename (pyStem (pstr "report"))).length + (pstr "20240101_120000").length +
        (pstr "csv").length + 6 ≤ 200
      ∧ [candName (sanitize_filename (pyStem (pstr "report"))) (pstr "20240101_120000")
          (pstr "csv")].length ≤ 998)
    ∧ (generate_timestamped_filename
        [candName (sanitize_filename (pyStem (pstr "report"))) (pstr "20240101_120000")
          (pstr "csv")]
        (pstr "20240101_120000") (pstr "report") (pstr "csv") ∉
          [candName (sanitize_filename (pyStem (pstr "report"))) (pstr "20240101_120000")
            (pstr "csv")]
      ∧ (candName (sanitize_filename (pyStem (pstr "report"))) (pstr "20240101_120000")
            (pstr "csv") ∉
            [candName (sanitize_filename (pyStem (pstr "report"))) (pstr "20240101_120000")
              (pstr "csv")] →
          generate_timestamped_filename
            [candName (sanitize_filename (pyStem (pstr "report"))) (pstr "20240101_120000")
              (pstr "csv")]
            (pstr "20240101_120000") (pstr "report") (pstr "csv") =
            candName (sanitize_filename (pyStem (pstr "report"))) (pstr "20240101_120000")
              (pstr "csv"))
      ∧ (candName (sanitize_filename (pyStem (pstr "report"))) (pstr "20240101_120000")
            (pstr "csv") ∈
            [candName (sanitize_filename (pyStem (pstr "report"))) (pstr "20240101_120000")
              (pstr "csv")] →
          ∃ c, 1 ≤ c ∧ c ≤ 999
            ∧ generate_timestamped_filename
                [candName (sanitize_filename (pyStem (pstr "report"))) (pstr "20240101_120000")
                  (pstr "csv")]
                (pstr "20240101_120000") (pstr "report") (pstr "csv") =
                seqName (sanitize_filename (pyStem (pstr "report"))) (pstr "20240101_120000")
                  (pstr "csv") c
            ∧ seqName (sanitize_filename (pyStem (pstr "report"))) (pstr "20240101_120000")
                (pstr "csv") c ∉
                [candName (sanitize_filename (pyStem (pstr "report"))) (pstr "20240101_120000")
                  (pstr "csv")]
            ∧ (∀ c', 1 ≤ c' → c' < c →
                seqName (sanitize_filename (pyStem (pstr "report"))) (pstr "20240101_120000")
                  (pstr "csv") c' ∈
                  [candName (sanitize_filename (pyStem (pstr "report"))) (pstr "20240101_120000")
                    (pstr "csv")]))) :=
  ⟨by decide, generate_timestamped_filename_collision_safe _ _ _ _ (by decide) (by decide)⟩

set_option maxRecDepth 10000 in
/-- **C1 (counterexample).** With a 179-character base, a one-character
extension and the colliding name `base_<ts>.c` already on disk, the
sequence-suffixed candidate exceeds 200 characters, the truncation step
discards the sequence suffix again, and the function returns exactly the
name of the existing file: the claimed "never given the same name as an
existing file" fails. -/
theorem generate_timestamped_filename_collision_cex :
    generate_timestamped_filename
        [candName (List.replicate 179 'a') (pstr "20240101_120000") (pstr "c")]
        (pstr "20240101_120000") (List.replicate 179 'a') (pstr "c") ∈
      [candName (List.replicate 179 'a') (pstr "20240101_120000") (pstr "c")] := by
  decide

/-- **C6 (amended).** For every base name and every extension of length at
most 180 (with the 15-character timestamp), the generated filename is at
most 200 characters; when the truncation branch fires, only the base
portion is shortened (the kept part is a prefix of the sanitized base) and
the name still ends with the full `_YYYYMMDD_HHMMSS` timestamp followed by
the extension. -/
theorem generate_timestamped_filename_length (fs : List PyStr) (ts name ext : PyStr)
    (hts : ts.length = 15) (hext : ext.length ≤ 180) :
    (generate_timestamped_filename fs ts name ext).length ≤ 200
    ∧ (200 < (pre_truncation_name fs ts name ext).length →
        ('_' :: (ts ++ '.' :: ext)) <:+ generate_timestamped_filename fs ts name ext
        ∧ ∃ b, b <+: sanitize_filename (pyStem name)
            ∧ generate_timestamped_filename fs ts name ext = b ++ '_' :: (ts ++ '.' :: ext)) := by
  by_cases h : 200 < (pre_truncation_name fs ts name ext).length
  · have hnn : (0 : Int) ≤ 200 - (ts.length : Int) - (ext.length : Int) - 5 := by omega
    have hgen : generate_timestamped_filename fs ts name ext =
        candName ((sanitize_filename (pyStem name)).take
          ((200 - (ts.length : Int) - (ext.length : Int) - 5).toNat)) ts ext := by
      simp only [generate_timestamped_filename, if_pos h, pySlice, if_pos hnn]
    refine ⟨?_, fun _ => ⟨⟨_, hgen.symm⟩, ⟨_, List.take_prefix _ _, hgen⟩⟩⟩
    rw [hgen, candName_length, List.length_take]
    have : (200 - (ts.length : Int) - (ext.length : Int) - 5).toNat = 180 - ext.length := by
      omega
    omega
  · have hgen : generate_timestamped_filename fs ts name ext =
        pre_truncation_name fs ts name ext := by
      simp only [generate_timestamped_filename, if_neg h]
    exact ⟨by rw [hgen]; omega, fun hcon => absurd hcon h⟩

set_option maxRecDepth 10000 in
/-- **C6 (counterexample).** With a 190-character extension, the truncation
arithmetic produces a negative base budget and the returned name is 207
characters long: the claimed universal 200-character bound fails for very
long extensions. -/
theorem generate_timestamped_filename_length_cex :
    200 < (generate_timestamped_filename [] (pstr "20240101_120000") (pstr "ab")
      (List.replicate 190 'e')).length := by decide

set_option maxRecDepth 10000 in
/-- Witness for **C6 (amended)**: a 250-character base name with extension
`csv`, where the truncation branch fires. -/
theorem generate_timestamped_filename_length_witness :
    ((pstr "20240101_120000").length = 15 ∧ (pstr "csv").length ≤ 180)
    ∧ ((generate_timestamped_filename [] (pstr "20240101_120000")
          (List.replicate 250 'a') (pstr "csv")).length ≤ 200
      ∧ (200 < (pre_truncation_name [] (pstr "20240101_120000")
            (List.replicate 250 'a') (pstr "csv")).length →
          ('_' :: (pstr "20240101_120000" ++ '.' :: pstr "csv")) <:+
            generate_timestamped_filename [] (pstr "20240101_120000")
              (List.replicate 250 'a') (pstr "csv")
          ∧ ∃ b, b <+: sanitize_filename (pyStem (List.replicate 250 'a'))
              ∧ generate_timestamped_filename [] (pstr "20240101_120000")
                  (List.replicate 250 'a') (pstr "csv") =
                b ++ '_' :: (pstr "20240101_120000" ++ '.' :: pstr "csv"))) :=
  ⟨by decide, generate_timestamped_filename_length [] _ _ _ (by decide) (by decide)⟩

/-- **C2.** `split_data_file` with `split_method="size"` never succeeds:
for every loadable source, the sample written to measure bytes-per-row
turns `.temp_sample` into a directory (its pathlib suffix is empty, so
`save_data_file` treats it as a directory target), the subsequent
`temp_file.unlink()` raises `IsADirectoryError` (or, for a zero-row
source, `bytes_per_row` divides by zero first), and the wrapper converts
the exception into the `OperationalError` "File split failed" — contradicting
the claim and the repository's own `test_split_data_file_by_size`. -/
theorem split_data_file_size_always_fails {α : Type} (rows : List α)
    (stem ext : PyStr) (mb sb : ℚ) (hmb : mb ≠ 0) :
    split_data_file_size rows stem ext mb sb = .error (pstr "File split failed") := by
  have hdir : pySuffix (pstr ".temp_sample") = [] := by decide
  have herr : ∃ e, split_by_size rows stem ext (mb * 1024 * 1024) sb = .error e := by
    by_cases hr : min 1000 rows.length = 0
    · exact ⟨_, by rw [split_by_size, if_pos hr]⟩
    · refine ⟨.isADirectory, ?_⟩
      rw [split_by_size, if_neg hr, if_pos hdir]
  obtain ⟨e, he⟩ := herr
  rw [split_data_file_size, if_pos hmb, he]

/-- Witness for **C2**: the shape of the repository's own
`test_split_data_file_by_size` (a 50-row frame, target ≈ 0.3 of the file
size) indeed yields the wrapped `OperationalError`. -/
theorem split_data_file_size_always_fails_witness :
    ((3 : ℚ) / 10 ≠ 0
    ∧ split_data_file_size (List.replicate 50 (0 : Nat)) (pstr "data") (pstr "csv")
        ((3 : ℚ) / 10) 2000 = .error (pstr "File split failed")) :=
  ⟨by norm_num, split_data_file_size_always_fails _ _ _ _ _ (by norm_num)⟩

/-- **C8.** Whenever the file exists (so `read_text` succeeds, modeled by
`hread`), `extract_text` returns a string and never raises, whatever the
extension or the behavior of the PDF/DOCX libraries; and when it does
propagate an error, the file was missing. -/
theorem extract_text_total (env : DocEnv) (path : PyStr)
    (hread : ∀ p, env.fileExists p = true → ∃ s, env.readText p = .ok s) :
    (env.fileExists path = true → ∃ s, extract_text env path = .ok s)
    ∧ (∀ e, extract_text env path = .error e → env.fileExists path = false) := by
  rw [extract_text]
  by_cases h1 : pyLower (pySuffix path) = pstr ".pdf"
  · rw [if_pos h1]
    exact ⟨fun _ => ⟨_, rfl⟩, fun e he => absurd he (by simp)⟩
  · rw [if_neg h1]
    by_cases h2 : pyLower (pySuffix path) = pstr ".docx" ∧ env.docxRead.isSome
    · rw [if_pos h2]
      exact ⟨fun _ => ⟨_, rfl⟩, fun e he => absurd he (by simp)⟩
    · rw [if_neg h2]
      by_cases h3 : pyLower (pySuffix path) = pstr ".txt"
      · rw [if_pos h3]
        refine ⟨hread path, fun e he => ?_⟩
        by_contra hex
        obtain ⟨s, hs⟩ := hread path (by
          cases hb : env.fileExists path
          · exact absurd hb hex
          · rfl)
        rw [hs] at he
        exact Except.noConfusion he
      · rw [if_neg h3]
        constructor
        · intro _
          cases hr : env.readText path with
          | ok t => exact ⟨t, rfl⟩
          | error _ => exact ⟨[], rfl⟩
        · intro e he
          cases hr : env.readText path with
          | ok t => rw [hr] at he; exact Except.noConfusion he
          | error _ => rw [hr] at he; exact Except.noConfusion he

/-- Witness for **C8**: a concrete environment (no PDF/DOCX libraries, a
readable file system) and an unknown-format path `a.bin`. -/
theorem extract_text_total_witness :
    (∀ p, (DocEnv.mk none none none (fun _ => .ok (pstr "hello")) (fun _ => true)).fileExists p =
        true →
      ∃ s, (DocEnv.mk none none none (fun _ => .ok (pstr "hello")) (fun _ => true)).readText p =
        .ok s)
    ∧ (((DocEnv.mk none none none (fun _ => .ok (pstr "hello")) (fun _ => true)).fileExists
          (pstr "a.bin") = true →
        ∃ s, extract_text (DocEnv.mk none none none (fun _ => .ok (pstr "hello"))
            (fun _ => true)) (pstr "a.bin") = .ok s)
      ∧ (∀ e, extract_text (DocEnv.mk none none none (fun _ => .ok (pstr "hello"))
            (fun _ => true)) (pstr "a.bin") = .error e →
          (DocEnv.mk none none none (fun _ => .ok (pstr "hello"))
            (fun _ => true)).fileExists (pstr "a.bin") = false)) :=
  ⟨fun _ _ => ⟨pstr "hello", rfl⟩,
    extract_text_total _ _ (fun _ _ => ⟨pstr "hello", rfl⟩)⟩

/-- `store_set` on a non-matching head is a congruence on the tail. -/
theorem store_set_cons_ne (hd : PyStr × List (PyStr × PyStr)) (tl : SearchStore)
    (dir : PyStr) (es : List (PyStr × PyStr)) (hh : hd.1 ≠ dir) :
    store_set (hd :: tl) dir es = hd :: store_set tl dir es := by
  simp only [store_set, List.any_cons, decide_eq_false hh, Bool.false_or]
  by_cases h : tl.any (fun e => e.1 = dir)
  · rw [if_pos h, if_pos h]; simp [hh]
  · rw [if_neg h, if_neg h]; simp

/-- Setting then reading a directory of the store round-trips. -/
theorem store_entries_set (store : SearchStore) (dir : PyStr)
    (es : List (PyStr × PyStr)) : store_entries (store_set store dir es) dir = es := by
  induction store with
  | nil => simp [store_set, store_entries]
  | cons hd tl ih =>
      by_cases hh : hd.1 = dir
      · have hrw : store_set (hd :: tl) dir es =
            (dir, es) :: (tl.map fun e => if e.1 = dir then (dir, es) else e) := by
          simp [store_set, List.any_cons, hh]
        rw [hrw, store_entries]
        simp
      · rw [store_set_cons_ne hd tl dir es hh]
        simp only [store_entries] at ih ⊢
        rw [List.find?_cons_of_neg _ (by simpa using hh)]
        exact ih

/-- The pair just written by `dict_set` is a member of the result. -/
theorem dict_set_mem (entries : List (PyStr × PyStr)) (k v : PyStr) :
    (k, v) ∈ dict_set entries k v := by
  rw [dict_set]
  by_cases h : entries.any (fun e => e.1 = k)
  · rw [if_pos h]
    simp only [List.any_eq_true, decide_eq_true_eq] at h
    obtain ⟨e, he, hk⟩ := h
    exact List.mem_map.mpr ⟨e, he, by rw [if_pos hk]⟩
  · rw [if_neg h]
    exact List.mem_append_right _ (List.mem_singleton.mpr rfl)

/-- **C3** (spec-modelled). After one persistent-index instance adds a
document under a directory, a second, independently constructed instance
rooted at the same directory finds that document for any query whose
stripped text occurs case-insensitively in the document text. -/
theorem persistent_index_cross_instance (store : SearchStore)
    (idx1 idx2 : PersistentSearchIndex) (hdir : idx1.dir = idx2.dir)
    (name text query : PyStr) (hq : pyStrip query ≠ [])
    (hsub : pyLower (pyStrip query) <:+: pyLower text) :
    name ∈ (idx2.search (idx1.add store name text) query).map Prod.fst := by
  have htext : text ≠ [] := by
    rintro rfl
    rcases hsub with ⟨l, r, hlr⟩
    simp only [pyLower, List.map_nil] at hlr
    simp at hlr
    exact hq hlr.2.1
  rw [PersistentSearchIndex.search, PersistentSearchIndex.add, hdir,
    store_entries_set, index_search]
  rw [if_neg hq]
  refine List.mem_map.mpr ⟨(name, search_snippets text (pyLower (pyStrip query))), ?_, rfl⟩
  refine List.mem_filterMap.mpr ⟨(name, text), dict_set_mem _ _ _, ?_⟩
  rw [if_neg (by simpa using htext), if_pos hsub]

/-- Witness for **C3**, mirroring `test_persistent_across_instances`. -/
theorem persistent_index_cross_instance_witness :
    ((PersistentSearchIndex.mk (pstr "temp/index")).dir =
        (PersistentSearchIndex.mk (pstr "temp/index")).dir
      ∧ pyStrip (pstr "Persistent") ≠ []
      ∧ pyLower (pyStrip (pstr "Persistent")) <:+: pyLower (pstr "Persistent content"))
    ∧ pstr "doc1" ∈
        ((PersistentSearchIndex.mk (pstr "temp/index")).search
          ((PersistentSearchIndex.mk (pstr "temp/index")).add [] (pstr "doc1")
            (pstr "Persistent content"))
          (pstr "Persistent")).map Prod.fst :=
  ⟨⟨rfl, by decide, by decide⟩,
    persistent_index_cross_instance [] _ _ rfl _ _ _ (by decide) (by decide)⟩

/-- Character order on `Char` mirrors the order of the underlying code
points. -/
theorem char_le_nat {a b : Char} : a ≤ b ↔ a.toNat ≤ b.toNat := by
  simp [Char.le_def, UInt32.le_def, Fin.le_def, BitVec.le_def, Char.toNat, UInt32.toNat]

/-- Character equality on `Char` mirrors equality of code points. -/
theorem char_eq_nat {a b : Char} : a = b ↔ a.toNat = b.toNat :=
  ⟨congrArg _, fun h => Char.ext (UInt32.ext h)⟩

/-- Code-point ranges of the characters of a normalized host. -/
theorem normalizedHost_toNat {s : PyStr} (h : normalizedHost s) :
    ∀ c ∈ s, (97 ≤ c.toNat ∧ c.toNat ≤ 122) ∨ (48 ≤ c.toNat ∧ c.toNat ≤ 57)
      ∨ c.toNat = 46 ∨ c.toNat = 45 := by
  intro c hc
  rcases h.2.1 c hc with ⟨h1, h2⟩ | ⟨h1, h2⟩ | rfl | rfl
  · rw [char_le_nat] at h1 h2
    simp [Char.toNat, UInt32.size] at h1 h2 ⊢
    omega
  · rw [char_le_nat] at h1 h2
    simp [Char.toNat, UInt32.size] at h1 h2 ⊢
    omega
  · exact Or.inr (Or.inr (Or.inl (by decide)))
  · exact Or.inr (Or.inr (Or.inr (by decide)))

/-- `str.replace` is the identity when the pattern does not occur. -/
theorem pyReplaceAux_of_not_infix (old new : PyStr) (hne : old ≠ []) :
    ∀ (fuel : Nat) (s : PyStr), ¬ old <:+: s → pyReplaceAux old new fuel s = s := by
  intro fuel
  induction fuel with
  | zero => intro s _; rfl
  | succ fuel ih =>
      intro s hs
      match s with
      | [] => rfl
      | c :: rest =>
          rw [pyReplaceAux]
          rw [if_neg (by
            intro hp
            exact hs ((List.isPrefixOf_iff_prefix.mp hp).isInfix))]
          rw [ih rest (fun hinf => hs (by
            obtain ⟨u, v, huv⟩ := hinf
            exact ⟨c :: u, v, by rw [← huv]; simp⟩))]

/-- `str.replace` is the identity when the pattern does not occur. -/
theorem pyReplaceAll_of_not_infix (s old new : PyStr) (h : ¬ old <:+: s) :
    pyReplaceAll s old new = s := by
  rw [pyReplaceAll]
  by_cases ho : old = []
  · rw [if_pos ho]
  · rw [if_neg ho, pyReplaceAux_of_not_infix old new ho _ s h]

/-- `str.strip` is the identity when no character is strippable. -/
theorem pyStrip_eq_self {s : PyStr} (h : ∀ c ∈ s, pyIsSpace c = false) :
    pyStrip s = s := by
  have hdw : ∀ t : PyStr, (∀ c ∈ t, pyIsSpace c = false) → t.dropWhile pyIsSpace = t := by
    intro t ht
    match t with
    | [] => rfl
    | c :: rest => rw [List.dropWhile_cons, ht c (List.mem_cons_self c rest)]; simp
  rw [pyStrip, hdw s h, hdw s.reverse (fun c hc => h c (List.mem_reverse.mp hc)),
    List.reverse_reverse]

/-- **C9 (amended, value level).** `format_url` with `base_domain_only` is
the identity on a non-empty lower-cased host containing no `"www."`
anywhere (not merely no leading `"www."`: `replace` strips interior
occurrences too, see the counterexample). -/
theorem format_url_base_domain_idem (s : PyStr) (h : normalizedHost s) :
    format_url_base_domain (.vstr s) = s := by
  obtain ⟨hne, hchars, hwww⟩ := h
  have hN := normalizedHost_toNat ⟨hne, hchars, hwww⟩
  rw [format_url_base_domain, if_neg (by simp [hne])]
  have hstrip : pyStrip (pyStrOf (.vstr s)) = s := by
    rw [pyStrOf]
    refine pyStrip_eq_self ?_
    intro c hc
    have hthis := hN c hc
    simp only [Char.toNat] at hthis
    simp [pyIsSpace, char_eq_nat, Char.toNat, UInt32.size]
    omega
  rw [hstrip]
  have hcontra : ':' ∈ s → False := by
    intro hc
    exact absurd (hN ':' hc) (by decide)
  have hh1 : pyStartsWith s (pstr "http://") = false := by
    rw [pyStartsWith]
    by_contra hb
    simp only [Bool.not_eq_false] at hb
    obtain ⟨t, ht⟩ := List.isPrefixOf_iff_prefix.mp hb
    exact hcontra (by rw [← ht]; exact List.mem_append_left _ (by decide))
  have hh2 : pyStartsWith s (pstr "https://") = false := by
    rw [pyStartsWith]
    by_contra hb
    simp only [Bool.not_eq_false] at hb
    obtain ⟨t, ht⟩ := List.isPrefixOf_iff_prefix.mp hb
    exact hcontra (by rw [← ht]; exact List.mem_append_left _ (by decide))
  simp only [hh1, hh2, Bool.false_eq_true, or_self, if_false]
  have hnet : parseNetloc (pstr "https://" ++ s) = s := by
    rw [parseNetloc]
    simp only [List.isPrefixOf_iff_prefix.mpr ⟨s, rfl⟩, if_true]
    have h8 : (8 : Nat) = (pstr "https://").length := rfl
    rw [h8, List.drop_left]
    refine List.takeWhile_eq_self_iff.mpr ?_
    intro c hc
    have hthis := hN c hc
    simp only [Char.toNat] at hthis
    simp [char_eq_nat, Char.toNat, UInt32.size]
    omega
  rw [hnet]
  have hlow : pyLower s = s := by
    rw [pyLower]
    have : ∀ c ∈ s, pyLowerChar c = id c := by
      intro c hc
      have hthis := hN c hc
      simp only [Char.toNat] at hthis
      rw [pyLowerChar, if_neg, id]
      rintro ⟨ha, hb⟩
      rw [char_le_nat] at ha hb
      simp [Char.toNat, UInt32.size] at ha hb
      omega
    rw [List.map_congr_left this, List.map_id]
  rw [hlow]
  exact pyReplaceAll_of_not_infix _ _ _ hwww

/-- An absent label has no column index. -/
theorem findIdx_eq_none_of_not_mem (n : PyStr) :
    ∀ (cols : List PyStr) (i : Nat), n ∉ cols →
      List.findIdx? (fun c => c = n) cols i = none := by
  intro cols
  induction cols with
  | nil => intro i _; rfl
  | cons hd tl ih =>
      intro i hmem
      rw [List.findIdx?_cons, if_neg]
      · exact ih (i + 1) (fun h => hmem (List.mem_cons_of_mem hd h))
      · simp only [decide_eq_true_eq]
        rintro rfl
        exact hmem (List.mem_cons_self hd tl)

/-- A label appended behind non-matching labels is found at their length. -/
theorem findIdx_append_self (n : PyStr) :
    ∀ (cols : List PyStr) (i : Nat), n ∉ cols →
      List.findIdx? (fun c => c = n) (cols ++ [n]) i = some (i + cols.length) := by
  intro cols
  induction cols with
  | nil =>
      intro i _
      rw [List.nil_append, List.findIdx?_cons, if_pos (by simp)]
      rfl
  | cons hd tl ih =>
      intro i hmem
      rw [List.cons_append, List.findIdx?_cons, if_neg]
      · rw [ih (i + 1) (fun h => hmem (List.mem_cons_of_mem hd h))]
        congr 1
        simp [List.length_cons]
        omega
      · simp only [decide_eq_true_eq]
        rintro rfl
        exact hmem (List.mem_cons_self hd tl)

/-- Zipping a list with its own image collects pairs pointwise. -/
theorem zip_self_map {α β : Type} (l : List α) (f : α → β) :
    l.zip (l.map f) = l.map (fun a => (a, f a)) := by
  induction l with
  | nil => rfl
  | cons hd tl ih => simp [ih]

/-- **C9 (amended).** `standardize_urls` with `base_domain_only=true` is
idempotent on already-normalized input: when every value of the column is a
non-empty lower-cased host containing no occurrence of `"www."` (the
source's `replace` strips interior occurrences too, not only a leading
one), the `<column>_formatted` output column equals the input column. -/
theorem standardize_urls_idempotent (df : DataFrame) (column : PyStr)
    (hwf : ∀ r ∈ df.rows, r.length = df.cols.length)
    (hfresh : (column ++ pstr "_formatted") ∉ df.cols)
    (hvals : ∀ oc ∈ colCells df column, ∃ s, oc = some (PyVal.vstr s) ∧ normalizedHost s) :
    colCells (standardize_urls_base df column) (column ++ pstr "_formatted") =
      colCells df column := by
  rw [standardize_urls_base, dfSetCol]
  rw [show colIdx df.cols (column ++ pstr "_formatted") = none from
    findIdx_eq_none_of_not_mem _ _ 0 hfresh]
  simp only [colCells]
  have hz : df.rows.zip
      (List.map (fun oc => PyVal.vstr (format_url_base_domain (oc.getD PyVal.na)))
        (List.map (fun r => lookupCell df.cols r column) df.rows)) =
      df.rows.map (fun r => (r,
        PyVal.vstr (format_url_base_domain ((lookupCell df.cols r column).getD PyVal.na)))) := by
    rw [List.map_map, zip_self_map]
    simp [Function.comp]
  rw [hz, List.map_map, List.map_map]
  refine List.map_congr_left ?_
  intro r hr
  obtain ⟨s, hs, hnorm⟩ := hvals (lookupCell df.cols r column)
    (List.mem_map.mpr ⟨r, hr, rfl⟩)
  simp only [Function.comp]
  rw [lookupCell, colIdx, findIdx_append_self _ _ 0 hfresh, Nat.zero_add]
  rw [Option.some_bind]
  rw [show (r ++ [PyVal.vstr (format_url_base_domain
      ((lookupCell df.cols r column).getD PyVal.na))]).get? df.cols.length =
    some (PyVal.vstr (format_url_base_domain
      ((lookupCell df.cols r column).getD PyVal.na))) from by
    rw [← hwf r hr]
    exact List.get?_concat_length r _]
  rw [hs]
  simp only [Option.getD_some]
  rw [format_url_base_domain_idem s hnorm]

/-- **C9 (counterexample).** `"awww.com"` is a non-empty, lower-cased host
value with no *leading* `"www."`, yet standardization with
`base_domain_only=true` rewrites it to `"acom"`: `replace('www.', '')`
strips the interior occurrence, so the claimed idempotence fails. -/
theorem standardize_urls_www_cex :
    (pstr "awww.com" ≠ []
      ∧ (∀ c ∈ pstr "awww.com",
          ('a' ≤ c ∧ c ≤ 'z') ∨ ('0' ≤ c ∧ c ≤ '9') ∨ c = '.' ∨ c = '-')
      ∧ pyStartsWith (pstr "awww.com") (pstr "www.") = false)
    ∧ colCells
        (standardize_urls_base (DataFrame.mk [pstr "u"] [[PyVal.vstr (pstr "awww.com")]])
          (pstr "u"))
        (pstr "u" ++ pstr "_formatted") = [some (PyVal.vstr (pstr "acom"))]
    ∧ pstr "acom" ≠ pstr "awww.com" := by
  refine ⟨⟨by decide, ?_, by decide⟩, by decide, by decide⟩
  decide

/-- Witness for **C9 (amended)** at the already-normalized value
`example.com`. -/
theorem standardize_urls_idempotent_witness :
    ((∀ r ∈ (DataFrame.mk [pstr "u"] [[PyVal.vstr (pstr "example.com")]]).rows,
        r.length = (DataFrame.mk [pstr "u"] [[PyVal.vstr (pstr "example.com")]]).cols.length)
      ∧ (pstr "u" ++ pstr "_formatted") ∉
          (DataFrame.mk [pstr "u"] [[PyVal.vstr (pstr "example.com")]]).cols)
    ∧ colCells
        (standardize_urls_base (DataFrame.mk [pstr "u"] [[PyVal.vstr (pstr "example.com")]])
          (pstr "u"))
        (pstr "u" ++ pstr "_formatted") =
      colCells (DataFrame.mk [pstr "u"] [[PyVal.vstr (pstr "example.com")]]) (pstr "u") :=
  ⟨⟨by decide, by decide⟩,
    standardize_urls_idempotent _ _ (by decide) (by decide)
      (fun oc hoc => ⟨pstr "example.com", by
        have h : colCells (DataFrame.mk [pstr "u"] [[PyVal.vstr (pstr "example.com")]])
            (pstr "u") = [some (PyVal.vstr (pstr "example.com"))] := by decide
        rw [h] at hoc
        exact List.mem_singleton.mp hoc, by decide⟩)⟩

/-- **C5 (amended).** `remove_empty_rows_columns` drops exactly those rows
that are entirely missing, or whose cells all trim to the empty string, or
whose cells all trim to `"nan"` — uniformly one of the three across the
row, not each cell independently — then applies the same rule column-wise
over the kept rows, and returns the counts of rows and columns removed. -/
theorem remove_empty_rows_columns_spec (df : DataFrame) :
    remove_empty_rows_columns df =
      (let keptRows := df.rows.filter
        (fun r => !(rowAllNa r || rowAllEmpty r || rowAllNan r))
       let keptIdx := (List.range df.cols.length).filter (fun j =>
        !(keptRows.all (fun r => r.getD j .na = PyVal.na)
          || keptRows.all (fun r => cellStripped (r.getD j .na) = [])
          || keptRows.all (fun r => cellStripped (r.getD j .na) = pstr "nan")))
       (⟨keptIdx.map (fun j => df.cols.getD j []),
         keptRows.map (fun r => keptIdx.map (fun j => r.getD j .na))⟩,
        df.rows.length - keptRows.length, df.cols.length - keptIdx.length)) := by
  have hrows : (df.rows.filter (fun r => !(rowAllNa r))).filter
      (fun r => !(rowAllEmpty r || rowAllNan r)) =
      df.rows.filter (fun r => !(rowAllNa r || rowAllEmpty r || rowAllNan r)) := by
    rw [List.filter_filter]
    refine List.filter_congr ?_
    intro r _
    cases rowAllNa r <;> cases rowAllEmpty r <;> cases rowAllNan r <;> rfl
  have hcols : ∀ (rs : List (List PyVal)),
      ((List.range df.cols.length).filter
        (fun j => !(rs.all (fun r => r.getD j .na = .na)))).filter (fun j =>
          !(rs.all (fun r => cellStripped (r.getD j .na) = [])
            || rs.all (fun r => cellStripped (r.getD j .na) = pstr "nan"))) =
      (List.range df.cols.length).filter (fun j =>
        !(rs.all (fun r => r.getD j .na = PyVal.na)
          || rs.all (fun r => cellStripped (r.getD j .na) = [])
          || rs.all (fun r => cellStripped (r.getD j .na) = pstr "nan"))) := by
    intro rs
    rw [List.filter_filter]
    refine List.filter_congr ?_
    intro j _
    cases rs.all (fun r => r.getD j .na = PyVal.na) <;>
      cases rs.all (fun r => cellStripped (r.getD j .na) = []) <;>
      cases rs.all (fun r => cellStripped (r.getD j .na) = pstr "nan") <;> rfl
  rw [remove_empty_rows_columns]
  simp only [hrows, hcols]

/-- **C5 (counterexample).** In the one-row frame `[["", "nan"]]` every
cell's stringified, trimmed value is empty or `"nan"` (each cell
independently), yet the function removes zero rows: the code requires all
cells empty *or* all cells `"nan"`, not a per-cell mixture. -/
theorem remove_empty_rows_per_cell_cex :
    (∀ v ∈ [PyVal.vstr [], PyVal.vstr (pstr "nan")],
        cellStripped v = [] ∨ cellStripped v = pstr "nan")
    ∧ (remove_empty_rows_columns
        (DataFrame.mk [pstr "a", pstr "b"]
          [[PyVal.vstr [], PyVal.vstr (pstr "nan")]])).2.1 = 0 := by
  decide

/-- Both flag computations produce one flag per input cell. -/
theorem flags_length (vals : List (Option ℚ)) (t : ℚ) (method : PyStr) :
    (if method = pstr "zscore" then zscore_flags vals t else iqr_flags vals t).length =
      vals.length := by
  by_cases h : method = pstr "zscore"
  · rw [if_pos h, zscore_flags]
    by_cases h2 : (vals.filterMap id).length < 2
    · rw [if_pos h2, List.length_map]
    · rw [if_neg h2, List.length_map]
  · rw [if_neg h, iqr_flags]
    by_cases h2 : (sortRat (vals.filterMap id)).isEmpty
    · rw [if_pos h2, List.length_map]
    · rw [if_neg h2, List.length_map]

/-- Rows of the append branch of `dfSetCol`, element by element. -/
theorem dfSetCol_rows_getD (rows : List (List PyVal)) (cells : List PyVal)
    (i : Nat) (hi : i < rows.length) (hlen : cells.length = rows.length) :
    ((rows.zip cells).map (fun p => p.1 ++ [p.2])).getD i [] =
      rows.getD i [] ++ [cells.getD i PyVal.na] := by
  have hz : i < (rows.zip cells).length := by rw [List.length_zip]; omega
  rw [List.getD_eq_getElem _ _ (by rw [List.length_map]; exact hz)]
  rw [List.getElem_map, List.getElem_zip]
  rw [List.getD_eq_getElem _ _ hi, List.getD_eq_getElem _ _ (by omega)]

/-- Invariant of the `detect_outliers` fold: starting from an accumulator
that extends `df` with boolean columns `names`, processing `cs` (whose flag
names are fresh and pairwise distinct) extends it further with exactly the
flag columns of the qualifying columns of `cs`. -/
theorem detect_outliers_fold_inv (df : DataFrame) (method : PyStr) (t : ℚ) :
    ∀ (cs : List PyStr) (acc : DataFrame) (names : List PyStr),
      acc.cols = df.cols ++ names →
      acc.rows.length = df.rows.length →
      (∀ i, i < df.rows.length → ∃ e, acc.rows.getD i [] = df.rows.getD i [] ++ e
        ∧ e.length = names.length ∧ ∀ v ∈ e, ∃ b, v = PyVal.vbool b) →
      (∀ c ∈ cs, (c ++ pstr "_outlier") ∉ acc.cols) →
      cs.Nodup →
      (cs.foldl (detect_outliers_step df method t) acc).cols =
          df.cols ++ names ++ (outlier_columns df cs).map (· ++ pstr "_outlier")
        ∧ (cs.foldl (detect_outliers_step df method t) acc).rows.length = df.rows.length
        ∧ (∀ i, i < df.rows.length →
            ∃ e, (cs.foldl (detect_outliers_step df method t) acc).rows.getD i [] =
                df.rows.getD i [] ++ e
              ∧ e.length = names.length + (outlier_columns df cs).length
              ∧ ∀ v ∈ e, ∃ b, v = PyVal.vbool b) := by
  intro cs
  induction cs with
  | nil =>
      intro acc names hcols hlen hrows _ _
      refine ⟨by simpa [outlier_columns] using hcols, hlen, ?_⟩
      intro i hi
      obtain ⟨e, he1, he2, he3⟩ := hrows i hi
      exact ⟨e, he1, by simpa [outlier_columns] using he2, he3⟩
  | cons c rest ih =>
      intro acc names hcols hlen hrows hfresh hnodup
      rw [List.foldl_cons]
      by_cases hq : c ∈ df.cols ∧ numericCol df c
      · -- the column is flagged: one boolean column is appended
        have hstep : detect_outliers_step df method t acc c =
            ⟨acc.cols ++ [c ++ pstr "_outlier"],
             (acc.rows.zip
               (((if method = pstr "zscore" then
                   zscore_flags ((colCells df c).map (fun oc => cellRat (oc.getD PyVal.na))) t
                 else
                   iqr_flags ((colCells df c).map (fun oc => cellRat (oc.getD PyVal.na))) t)).map
                  PyVal.vbool)).map (fun p => p.1 ++ [p.2])⟩ := by
          rw [detect_outliers_step, if_pos hq, dfSetCol]
          rw [show colIdx acc.cols (c ++ pstr "_outlier") = none from
            findIdx_eq_none_of_not_mem _ _ 0 (hfresh c (List.mem_cons_self c rest))]
        set flags := (if method = pstr "zscore" then
            zscore_flags ((colCells df c).map (fun oc => cellRat (oc.getD PyVal.na))) t
          else iqr_flags ((colCells df c).map (fun oc => cellRat (oc.getD PyVal.na))) t)
          with hflags
        have hflen : (flags.map PyVal.vbool).length = acc.rows.length := by
          rw [List.length_map, hflags, flags_length, List.length_map, colCells,
            List.length_map, hlen]
        have hout : outlier_columns df (c :: rest) =
            c :: outlier_columns df rest := by
          rw [outlier_columns, List.filter_cons, if_pos (by simpa using hq)]
          rfl
        have happ := ih (detect_outliers_step df method t acc c)
          (names ++ [c ++ pstr "_outlier"])
          (by rw [hstep]; simp [hcols])
          (by
            rw [hstep]
            simp only [List.length_map, List.length_zip, hflen]
            omega)
          (by
            intro i hi
            obtain ⟨e, he1, he2, he3⟩ := hrows i hi
            rw [hstep]
            refine ⟨e ++ [(flags.map PyVal.vbool).getD i PyVal.na], ?_, ?_, ?_⟩
            · rw [dfSetCol_rows_getD acc.rows (flags.map PyVal.vbool) i (by omega) hflen,
                he1, List.append_assoc]
            · simp only [List.length_append, he2, List.length_singleton]
            · intro v hv
              rcases List.mem_append.mp hv with hv | hv
              · exact he3 v hv
              · rw [List.mem_singleton.mp hv]
                have hib : i < flags.length := by
                  have h2 := hflen
                  rw [List.length_map] at h2
                  omega
                refine ⟨flags.get ⟨i, hib⟩, ?_⟩
                rw [List.getD_eq_getElem _ _ (by rw [List.length_map]; exact hib)]
                rw [List.getElem_map]
                rfl)
          (by
            intro c' hc'
            rw [hstep]
            simp only [List.mem_append, List.mem_singleton]
            rintro (hmem | heq)
            · exact hfresh c' (List.mem_cons_of_mem c hc') hmem
            · have : c' = c := List.append_cancel_right heq
              rw [this] at hc'
              exact (List.nodup_cons.mp hnodup).1 hc')
          (List.nodup_cons.mp hnodup).2
        refine ⟨?_, happ.2.1, ?_⟩
        · rw [happ.1, hout]
          simp [List.append_assoc]
        · intro i hi
          obtain ⟨e, he1, he2, he3⟩ := happ.2.2 i hi
          refine ⟨e, he1, ?_, he3⟩
          rw [he2, hout]
          simp
          omega
      · -- absent or non-numeric: nothing changes
        have hstep : detect_outliers_step df method t acc c = acc := by
          rw [detect_outliers_step, if_neg hq]
        have hout : outlier_columns df (c :: rest) = outlier_columns df rest := by
          rw [outlier_columns, List.filter_cons, if_neg (by simpa using hq)]
          rfl
        rw [hstep]
        have happ := ih acc names hcols hlen hrows
          (fun c' hc' => hfresh c' (List.mem_cons_of_mem c hc'))
          (List.nodup_cons.mp hnodup).2
        refine ⟨?_, happ.2.1, ?_⟩
        · rw [hout]
          exact happ.1
        · rw [hout]
          exact happ.2.2

/-- **C10 (amended).** For every dataframe and every list of distinct
listed columns none of whose `<column>_outlier` flag names collides with an
existing column, `detect_outliers` preserves the row count, leaves the
pre-existing columns (names and row prefixes) unchanged, and appends
exactly one boolean `<column>_outlier` column per listed column that exists
and is numeric; absent or non-numeric listed columns produce no change. -/
theorem detect_outliers_frame_effect (df : DataFrame) (columns : List PyStr)
    (method : PyStr) (t : ℚ) (hnodup : columns.Nodup)
    (hfresh : ∀ c ∈ columns, (c ++ pstr "_outlier") ∉ df.cols) :
    (detect_outliers df columns method t).rows.length = df.rows.length
    ∧ (detect_outliers df columns method t).cols =
        df.cols ++ (outlier_columns df columns).map (· ++ pstr "_outlier")
    ∧ ∀ i, i < df.rows.length →
        ∃ e, (detect_outliers df columns method t).rows.getD i [] =
            df.rows.getD i [] ++ e
          ∧ e.length = (outlier_columns df columns).length
          ∧ ∀ v ∈ e, ∃ b, v = PyVal.vbool b := by
  have h := detect_outliers_fold_inv df method t columns df []
    (by simp) rfl
    (fun i _ => ⟨[], by simp, rfl, fun v hv => absurd hv (List.not_mem_nil v)⟩)
    (by simpa using hfresh) hnodup
  refine ⟨h.2.1, by simpa using h.1, ?_⟩
  intro i hi
  obtain ⟨e, he1, he2, he3⟩ := h.2.2 i hi
  exact ⟨e, he1, by simpa using he2, he3⟩

/-- **C10 (counterexample).** When a column named `x_outlier` already
exists, `detect_outliers` on `["x"]` adds no column at all and overwrites
the pre-existing `x_outlier` value (the string `"a"`) with a boolean:
pre-existing columns are not left unchanged. -/
theorem detect_outliers_overwrite_cex :
    (detect_outliers
        (DataFrame.mk [pstr "x", pstr "x_outlier"]
          [[PyVal.vnum 0, PyVal.vstr (pstr "a")]])
        [pstr "x"] (pstr "zscore") 0).cols =
      [pstr "x", pstr "x_outlier"]
    ∧ colCells
        (detect_outliers
          (DataFrame.mk [pstr "x", pstr "x_outlier"]
            [[PyVal.vnum 0, PyVal.vstr (pstr "a")]])
          [pstr "x"] (pstr "zscore") 0) (pstr "x_outlier") =
        [some (PyVal.vbool false)]
    ∧ colCells
        (DataFrame.mk [pstr "x", pstr "x_outlier"]
          [[PyVal.vnum 0, PyVal.vstr (pstr "a")]])
        (pstr "x_outlier") =
        [some (PyVal.vstr (pstr "a"))] := by
  refine ⟨by decide, by decide, by decide⟩

/-- Witness for **C10 (amended)**: columns `x` (numeric), `s` (textual) and
`y` (absent); only `x_outlier` is appended. -/
theorem detect_outliers_frame_effect_witness :
    ([pstr "x", pstr "s", pstr "y"].Nodup
      ∧ (∀ c ∈ [pstr "x", pstr "s", pstr "y"], (c ++ pstr "_outlier") ∉
          (DataFrame.mk [pstr "x", pstr "s"]
            [[PyVal.vnum 0, PyVal.vstr (pstr "u")],
             [PyVal.vnum 10, PyVal.vstr (pstr "v")]]).cols))
    ∧ ((detect_outliers
          (DataFrame.mk [pstr "x", pstr "s"]
            [[PyVal.vnum 0, PyVal.vstr (pstr "u")],
             [PyVal.vnum 10, PyVal.vstr (pstr "v")]])
          [pstr "x", pstr "s", pstr "y"] (pstr "zscore") (1 / 2)).rows.length =
        (DataFrame.mk [pstr "x", pstr "s"]
          [[PyVal.vnum 0, PyVal.vstr (pstr "u")],
           [PyVal.vnum 10, PyVal.vstr (pstr "v")]]).rows.length
      ∧ (detect_outliers
          (DataFrame.mk [pstr "x", pstr "s"]
            [[PyVal.vnum 0, PyVal.vstr (pstr "u")],
             [PyVal.vnum 10, PyVal.vstr (pstr "v")]])
          [pstr "x", pstr "s", pstr "y"] (pstr "zscore") (1 / 2)).cols =
        (DataFrame.mk [pstr "x", pstr "s"]
          [[PyVal.vnum 0, PyVal.vstr (pstr "u")],
           [PyVal.vnum 10, PyVal.vstr (pstr "v")]]).cols ++
          (outlier_columns
            (DataFrame.mk [pstr "x", pstr "s"]
              [[PyVal.vnum 0, PyVal.vstr (pstr "u")],
               [PyVal.vnum 10, PyVal.vstr (pstr "v")]])
            [pstr "x", pstr "s", pstr "y"]).map (· ++ pstr "_outlier")
      ∧ ∀ i, i < (DataFrame.mk [pstr "x", pstr "s"]
            [[PyVal.vnum 0, PyVal.vstr (pstr "u")],
             [PyVal.vnum 10, PyVal.vstr (pstr "v")]]).rows.length →
          ∃ e, (detect_outliers
              (DataFrame.mk [pstr "x", pstr "s"]
                [[PyVal.vnum 0, PyVal.vstr (pstr "u")],
                 [PyVal.vnum 10, PyVal.vstr (pstr "v")]])
              [pstr "x", pstr "s", pstr "y"] (pstr "zscore") (1 / 2)).rows.getD i [] =
              (DataFrame.mk [pstr "x", pstr "s"]
                [[PyVal.vnum 0, PyVal.vstr (pstr "u")],
                 [PyVal.vnum 10, PyVal.vstr (pstr "v")]]).rows.getD i [] ++ e
            ∧ e.length = (outlier_columns
                (DataFrame.mk [pstr "x", pstr "s"]
                  [[PyVal.vnum 0, PyVal.vstr (pstr "u")],
                   [PyVal.vnum 10, PyVal.vstr (pstr "v")]])
                [pstr "x", pstr "s", pstr "y"]).length
            ∧ ∀ v ∈ e, ∃ b, v = PyVal.vbool b) :=
  ⟨⟨by decide, by decide⟩,
    detect_outliers_frame_effect _ _ _ _ (by decide) (by decide)⟩

/-- Behavior of the best-candidate loop: the running best score never
decreases, a returned match comes from the candidates (unless it is the
initial one), passed the threshold, carries the final score, and no
threshold-passing candidate scores higher. -/
theorem best_match_loop_spec (th : ℚ) (score : List PyVal → ℚ) :
    ∀ (cands : List (List PyVal)) (best0 : Option (List PyVal)) (bs0 : ℚ),
      (∀ r2, (best_match_loop th score cands best0 bs0).1 = some r2 →
        ((best_match_loop th score cands best0 bs0).1 = best0
            ∧ (best_match_loop th score cands best0 bs0).2 = bs0)
          ∨ (r2 ∈ cands ∧ th ≤ score r2
              ∧ score r2 = (best_match_loop th score cands best0 bs0).2))
      ∧ bs0 ≤ (best_match_loop th score cands best0 bs0).2
      ∧ (∀ r ∈ cands, th ≤ score r → score r ≤ (best_match_loop th score cands best0 bs0).2) := by
  intro cands
  induction cands with
  | nil =>
      intro best0 bs0
      exact ⟨fun r2 _ => Or.inl ⟨rfl, rfl⟩, le_refl _,
        fun r hr _ => absurd hr (List.not_mem_nil r)⟩
  | cons r rest ih =>
      intro best0 bs0
      rw [best_match_loop]
      by_cases hc : th ≤ score r ∧ bs0 < score r
      · rw [if_pos hc]
        obtain ⟨ih1, ih2, ih3⟩ := ih (some r) (score r)
        refine ⟨?_, le_of_lt (lt_of_lt_of_le hc.2 ih2), ?_⟩
        · intro r2 h2
          rcases ih1 r2 h2 with ⟨ha, hb⟩ | ⟨ha, hb, hcs⟩
          · right
            rw [ha] at h2
            obtain rfl : r = r2 := Option.some_injective _ h2
            exact ⟨List.mem_cons_self r rest, hc.1, hb.symm ▸ rfl⟩
          · exact Or.inr ⟨List.mem_cons_of_mem r ha, hb, hcs⟩
        · intro r' hr' hth
          rcases List.mem_cons.mp hr' with rfl | hr'
          · exact le_trans (le_refl _) ih2
          · exact ih3 r' hr' hth
      · rw [if_neg hc]
        obtain ⟨ih1, ih2, ih3⟩ := ih best0 bs0
        refine ⟨?_, ih2, ?_⟩
        · intro r2 h2
          rcases ih1 r2 h2 with h | ⟨ha, hb, hcs⟩
          · exact Or.inl h
          · exact Or.inr ⟨List.mem_cons_of_mem r ha, hb, hcs⟩
        · intro r' hr' hth
          rcases List.mem_cons.mp hr' with rfl | hr'
          · have : ¬ bs0 < score r' := fun hlt => hc ⟨hth, hlt⟩
            exact le_trans (not_lt.mp this) ih2
          · exact ih3 r' hr' hth

/-- Mapping the left component over a `filterMap` that preserves its input
as the left component yields a sublist of the input. -/
theorem filterMap_fst_sublist {α β : Type} (f : α → Option β) (l : List α) :
    List.Sublist ((l.filterMap (fun a => (f a).map (fun b => (a, b)))).map Prod.fst) l := by
  induction l with
  | nil => exact List.Sublist.refl []
  | cons a l ih =>
      rw [List.filterMap_cons]
      cases h : (f a).map (fun b => (a, b)) with
      | none => exact ih.cons a
      | some p =>
          have hp : p.1 = a := by
            cases hfa : f a with
            | none => rw [hfa] at h; exact Option.noConfusion h
            | some b =>
                rw [hfa] at h
                have h2 : (a, b) = p := by simpa using h
                rw [← h2]
          rw [List.map_cons, hp]
          exact ih.cons₂ a

/-- **C4 (amended).** With similarity enabled, the merge result is the
pandas row-concatenation of the standard join with, appended after it, the
side-by-side concatenated row pairs (the pair block keeps both frames'
column lists, so shared labels are duplicated; the concatenation either
preserves those duplicate columns or raises when pandas must realign them —
see `pdConcatRows`); each appended pair joins a row unmatched *on the first
chosen key column* (by value membership; only for inner/left joins) with
the unmatched right row (only for inner/right/outer joins) maximizing the
mean similarity over the chosen columns, accepted only when that best mean
score is at or above the threshold. -/
theorem merge_with_similarity_amended (sim : PyStr → PyStr → ℚ)
    (df1 df2 : DataFrame) (onCols : List PyStr) (how : PyStr) (threshold : ℚ)
    (simcols : List PyStr) (hon : onCols ≠ [])
    (hk1 : first_key onCols ∈ df1.cols) (hk2 : first_key onCols ∈ df2.cols) :
    ∃ pairs : List (List PyVal × List PyVal),
      merge_with_similarity sim df1 df2 onCols how threshold simcols =
        (if pairs = [] then .ok (pdMerge df1 df2 onCols how)
         else pdConcatRows (pdMerge df1 df2 onCols how) (simPairsFrame df1 df2 pairs))
      ∧ List.Sublist (pairs.map Prod.fst)
          (unmatched_left df1 df2 (first_key onCols) how)
      ∧ ∀ p ∈ pairs,
          p.1 ∈ unmatched_left df1 df2 (first_key onCols) how
          ∧ p.2 ∈ unmatched_right df1 df2 (first_key onCols) how
          ∧ threshold ≤ row_score sim df1.cols df2.cols simcols p.1 p.2
          ∧ ∀ r2 ∈ unmatched_right df1 df2 (first_key onCols) how,
              row_score sim df1.cols df2.cols simcols p.1 r2 ≤
                row_score sim df1.cols df2.cols simcols p.1 p.2 := by
  simp only [merge_with_similarity]
  by_cases h12 : unmatched_left df1 df2 (first_key onCols) how ≠ []
      ∧ unmatched_right df1 df2 (first_key onCols) how ≠ []
  · rw [if_pos h12]
    by_cases hp : (unmatched_left df1 df2 (first_key onCols) how).filterMap
        (fun r1 => ((best_match_loop threshold
            (row_score sim df1.cols df2.cols simcols r1)
            (unmatched_right df1 df2 (first_key onCols) how) none 0).1).map
          (fun r2 => (r1, r2))) ≠ []
    · rw [if_pos hp]
      refine ⟨_, by rw [if_neg (by simpa using hp)], filterMap_fst_sublist _ _, ?_⟩
      intro p hmem
      obtain ⟨r1, hr1, hsome⟩ := List.mem_filterMap.mp hmem
      cases hloop : (best_match_loop threshold
          (row_score sim df1.cols df2.cols simcols r1)
          (unmatched_right df1 df2 (first_key onCols) how) none 0).1 with
      | none => rw [hloop] at hsome; exact Option.noConfusion hsome
      | some r2 =>
          rw [hloop] at hsome
          simp only [Option.map_some'] at hsome
          obtain rfl : (r1, r2) = p := Option.some_injective _ hsome
          obtain ⟨hs1, hs2, hs3⟩ := best_match_loop_spec threshold
            (row_score sim df1.cols df2.cols simcols r1)
            (unmatched_right df1 df2 (first_key onCols) how) none 0
          rcases hs1 r2 hloop with ⟨ha, _⟩ | ⟨ha, hb, hcs⟩
          · rw [hloop] at ha; exact Option.noConfusion ha
          · refine ⟨hr1, ha, hb, ?_⟩
            intro r2' hr2' 
            by_cases hth : threshold ≤ row_score sim df1.cols df2.cols simcols r1 r2'
            · rw [hcs]
              exact hs3 r2' hr2' hth
            · exact le_trans (le_of_lt (not_le.mp hth)) hb
    · rw [if_neg hp]
      exact ⟨[], by rw [if_pos rfl], List.nil_sublist _,
        fun p hp' => absurd hp' (List.not_mem_nil p)⟩
  · rw [if_neg h12]
    exact ⟨[], by rw [if_pos rfl], List.nil_sublist _,
      fun p hp' => absurd hp' (List.not_mem_nil p)⟩

/-- The realignment error path of `pdConcatRows` is live in exactly the
situation `_merge_with_similarity` creates: with a shared non-key column
`v`, the exact match carries `k, v_x, v_y` while the pair block carries
`k, v, k, v`; realigning the non-unique pair block raises
(`InvalidIndexError`, wrapped into an `OperationalError` by
`merge_dataframes`). -/
theorem pdConcatRows_nonunique_realign_error :
    pdConcatRows
        (pdMerge (DataFrame.mk [pstr "k", pstr "v"] [])
          (DataFrame.mk [pstr "k", pstr "v"] []) [pstr "k"] (pstr "inner"))
        (simPairsFrame (DataFrame.mk [pstr "k", pstr "v"] [])
          (DataFrame.mk [pstr "k", pstr "v"] [])
          [([PyVal.vstr (pstr "a"), PyVal.vstr (pstr "b")],
            [PyVal.vstr (pstr "c"), PyVal.vstr (pstr "d")])]) = .error () :=
  rfl

/-- **C4 (counterexample).** Merging on the two key columns `k1`, `k2` with
rows `("1","a","same")` and `("1","b","same")` at threshold 0: both rows
are unmatched on the chosen keys in the claim's sense (no exact match
exists), and the only candidate pair's mean similarity over `v` is 1, at or
above the threshold, so the claim ("for every unmatched left row find the
unmatched right row maximizing..., accept..., and concatenate all accepted
fuzzy-matched row pairs onto the exact-match result") appends that pair —
but the code computes unmatchedness from the first key column only, finds
`"1"` on both sides, treats both rows as matched and returns the bare exact
join with zero rows and no appended block. -/
theorem merge_similarity_multikey_cex :
    spec_unmatched_left
        (DataFrame.mk [pstr "k1", pstr "k2", pstr "v"]
          [[PyVal.vstr (pstr "1"), PyVal.vstr (pstr "a"), PyVal.vstr (pstr "same")]])
        (DataFrame.mk [pstr "k1", pstr "k2", pstr "v"]
          [[PyVal.vstr (pstr "1"), PyVal.vstr (pstr "b"), PyVal.vstr (pstr "same")]])
        [pstr "k1", pstr "k2"] (pstr "inner") =
      [[PyVal.vstr (pstr "1"), PyVal.vstr (pstr "a"), PyVal.vstr (pstr "same")]]
    ∧ spec_unmatched_right
        (DataFrame.mk [pstr "k1", pstr "k2", pstr "v"]
          [[PyVal.vstr (pstr "1"), PyVal.vstr (pstr "a"), PyVal.vstr (pstr "same")]])
        (DataFrame.mk [pstr "k1", pstr "k2", pstr "v"]
          [[PyVal.vstr (pstr "1"), PyVal.vstr (pstr "b"), PyVal.vstr (pstr "same")]])
        [pstr "k1", pstr "k2"] (pstr "inner") =
      [[PyVal.vstr (pstr "1"), PyVal.vstr (pstr "b"), PyVal.vstr (pstr "same")]]
    ∧ row_score (fun a b => if a = b then 1 else 0)
        [pstr "k1", pstr "k2", pstr "v"] [pstr "k1", pstr "k2", pstr "v"] [pstr "v"]
        [PyVal.vstr (pstr "1"), PyVal.vstr (pstr "a"), PyVal.vstr (pstr "same")]
        [PyVal.vstr (pstr "1"), PyVal.vstr (pstr "b"), PyVal.vstr (pstr "same")] = 1
    ∧ merge_with_similarity (fun a b => if a = b then 1 else 0)
        (DataFrame.mk [pstr "k1", pstr "k2", pstr "v"]
          [[PyVal.vstr (pstr "1"), PyVal.vstr (pstr "a"), PyVal.vstr (pstr "same")]])
        (DataFrame.mk [pstr "k1", pstr "k2", pstr "v"]
          [[PyVal.vstr (pstr "1"), PyVal.vstr (pstr "b"), PyVal.vstr (pstr "same")]])
        [pstr "k1", pstr "k2"] (pstr "inner") 0 [pstr "v"] =
      .ok (pdMerge
        (DataFrame.mk [pstr "k1", pstr "k2", pstr "v"]
          [[PyVal.vstr (pstr "1"), PyVal.vstr (pstr "a"), PyVal.vstr (pstr "same")]])
        (DataFrame.mk [pstr "k1", pstr "k2", pstr "v"]
          [[PyVal.vstr (pstr "1"), PyVal.vstr (pstr "b"), PyVal.vstr (pstr "same")]])
        [pstr "k1", pstr "k2"] (pstr "inner"))
    ∧ (pdMerge
        (DataFrame.mk [pstr "k1", pstr "k2", pstr "v"]
          [[PyVal.vstr (pstr "1"), PyVal.vstr (pstr "a"), PyVal.vstr (pstr "same")]])
        (DataFrame.mk [pstr "k1", pstr "k2", pstr "v"]
          [[PyVal.vstr (pstr "1"), PyVal.vstr (pstr "b"), PyVal.vstr (pstr "same")]])
        [pstr "k1", pstr "k2"] (pstr "inner")).rows = [] := by
  refine ⟨by decide, by decide, ?_, ?_, by decide⟩
  · have hl1 : lookupCell [pstr "k1", pstr "k2", pstr "v"]
        [PyVal.vstr (pstr "1"), PyVal.vstr (pstr "a"), PyVal.vstr (pstr "same")]
        (pstr "v") = some (PyVal.vstr (pstr "same")) := by decide
    have hl2 : lookupCell [pstr "k1", pstr "k2", pstr "v"]
        [PyVal.vstr (pstr "1"), PyVal.vstr (pstr "b"), PyVal.vstr (pstr "same")]
        (pstr "v") = some (PyVal.vstr (pstr "same")) := by decide
    rw [row_score]
    simp only [List.filterMap_cons, List.filterMap_nil, hl1, hl2]
    norm_num
  · have hu : unmatched_left
        (DataFrame.mk [pstr "k1", pstr "k2", pstr "v"]
          [[PyVal.vstr (pstr "1"), PyVal.vstr (pstr "a"), PyVal.vstr (pstr "same")]])
        (DataFrame.mk [pstr "k1", pstr "k2", pstr "v"]
          [[PyVal.vstr (pstr "1"), PyVal.vstr (pstr "b"), PyVal.vstr (pstr "same")]])
        (first_key [pstr "k1", pstr "k2"]) (pstr "inner") = [] := by decide
    simp only [merge_with_similarity, hu]
    rw [if_neg (by simp)]
/-- Witness for **C4 (amended)**: a one-key merge of two one-row frames
(`"x"` vs `"y"`, constant scorer 1, threshold 1) in which a fuzzy pair *is*
appended: the exact match is empty, the pair block's duplicated key columns
survive the concatenation, and the result is the single side-by-side pair
row under columns `k, k`. -/
theorem merge_with_similarity_amended_witness :
    (([pstr "k"] : List PyStr) ≠ []
      ∧ first_key [pstr "k"] ∈ (DataFrame.mk [pstr "k"] [[PyVal.vstr (pstr "x")]]).cols
      ∧ first_key [pstr "k"] ∈ (DataFrame.mk [pstr "k"] [[PyVal.vstr (pstr "y")]]).cols)
    ∧ (∃ pairs : List (List PyVal × List PyVal),
        merge_with_similarity (fun _ _ => 1)
            (DataFrame.mk [pstr "k"] [[PyVal.vstr (pstr "x")]])
            (DataFrame.mk [pstr "k"] [[PyVal.vstr (pstr "y")]])
            [pstr "k"] (pstr "inner") 1 [pstr "k"] =
          (if pairs = [] then
            .ok (pdMerge (DataFrame.mk [pstr "k"] [[PyVal.vstr (pstr "x")]])
              (DataFrame.mk [pstr "k"] [[PyVal.vstr (pstr "y")]]) [pstr "k"] (pstr "inner"))
           else
            pdConcatRows
              (pdMerge (DataFrame.mk [pstr "k"] [[PyVal.vstr (pstr "x")]])
                (DataFrame.mk [pstr "k"] [[PyVal.vstr (pstr "y")]]) [pstr "k"] (pstr "inner"))
              (simPairsFrame (DataFrame.mk [pstr "k"] [[PyVal.vstr (pstr "x")]])
                (DataFrame.mk [pstr "k"] [[PyVal.vstr (pstr "y")]]) pairs))
        ∧ List.Sublist (pairs.map Prod.fst)
            (unmatched_left (DataFrame.mk [pstr "k"] [[PyVal.vstr (pstr "x")]])
              (DataFrame.mk [pstr "k"] [[PyVal.vstr (pstr "y")]])
              (first_key [pstr "k"]) (pstr "inner"))
        ∧ ∀ p ∈ pairs,
            p.1 ∈ unmatched_left (DataFrame.mk [pstr "k"] [[PyVal.vstr (pstr "x")]])
                (DataFrame.mk [pstr "k"] [[PyVal.vstr (pstr "y")]])
                (first_key [pstr "k"]) (pstr "inner")
            ∧ p.2 ∈ unmatched_right (DataFrame.mk [pstr "k"] [[PyVal.vstr (pstr "x")]])
                (DataFrame.mk [pstr "k"] [[PyVal.vstr (pstr "y")]])
                (first_key [pstr "k"]) (pstr "inner")
            ∧ (1 : ℚ) ≤ row_score (fun _ _ => 1)
                (DataFrame.mk [pstr "k"] [[PyVal.vstr (pstr "x")]]).cols
                (DataFrame.mk [pstr "k"] [[PyVal.vstr (pstr "y")]]).cols
                [pstr "k"] p.1 p.2
            ∧ ∀ r2 ∈ unmatched_right (DataFrame.mk [pstr "k"] [[PyVal.vstr (pstr "x")]])
                (DataFrame.mk [pstr "k"] [[PyVal.vstr (pstr "y")]])
                (first_key [pstr "k"]) (pstr "inner"),
                row_score (fun _ _ => 1)
                    (DataFrame.mk [pstr "k"] [[PyVal.vstr (pstr "x")]]).cols
                    (DataFrame.mk [pstr "k"] [[PyVal.vstr (pstr "y")]]).cols
                    [pstr "k"] p.1 r2 ≤
                  row_score (fun _ _ => 1)
                    (DataFrame.mk [pstr "k"] [[PyVal.vstr (pstr "x")]]).cols
                    (DataFrame.mk [pstr "k"] [[PyVal.vstr (pstr "y")]]).cols
                    [pstr "k"] p.1 p.2)
    ∧ merge_with_similarity (fun _ _ => 1)
        (DataFrame.mk [pstr "k"] [[PyVal.vstr (pstr "x")]])
        (DataFrame.mk [pstr "k"] [[PyVal.vstr (pstr "y")]])
        [pstr "k"] (pstr "inner") 1 [pstr "k"] =
      .ok (DataFrame.mk [pstr "k", pstr "k"]
        [[PyVal.vstr (pstr "x"), PyVal.vstr (pstr "y")]]) := by
  refine ⟨⟨by decide, by decide, by decide⟩,
    merge_with_similarity_amended (fun _ _ => 1) _ _ _ _ _ _ (by decide) (by decide)
      (by decide), ?_⟩
  have hu1 : unmatched_left (DataFrame.mk [pstr "k"] [[PyVal.vstr (pstr "x")]])
      (DataFrame.mk [pstr "k"] [[PyVal.vstr (pstr "y")]])
      (first_key [pstr "k"]) (pstr "inner") = [[PyVal.vstr (pstr "x")]] := by decide
  have hu2 : unmatched_right (DataFrame.mk [pstr "k"] [[PyVal.vstr (pstr "x")]])
      (DataFrame.mk [pstr "k"] [[PyVal.vstr (pstr "y")]])
      (first_key [pstr "k"]) (pstr "inner") = [[PyVal.vstr (pstr "y")]] := by decide
  have hscore : row_score (fun _ _ => (1 : ℚ)) [pstr "k"] [pstr "k"] [pstr "k"]
      [PyVal.vstr (pstr "x")] [PyVal.vstr (pstr "y")] = 1 := by
    have hl1 : lookupCell [pstr "k"] [PyVal.vstr (pstr "x")] (pstr "k") =
        some (PyVal.vstr (pstr "x")) := by decide
    have hl2 : lookupCell [pstr "k"] [PyVal.vstr (pstr "y")] (pstr "k") =
        some (PyVal.vstr (pstr "y")) := by decide
    rw [row_score]
    simp only [List.filterMap_cons, List.filterMap_nil, hl1, hl2]
    norm_num
  have hloop : best_match_loop 1
      (row_score (fun _ _ => (1 : ℚ)) [pstr "k"] [pstr "k"] [pstr "k"]
        [PyVal.vstr (pstr "x")])
      [[PyVal.vstr (pstr "y")]] none 0 = (some [PyVal.vstr (pstr "y")], 1) := by
    rw [best_match_loop, if_pos ⟨by rw [hscore], by rw [hscore]; norm_num⟩, hscore,
      best_match_loop]
  simp only [merge_with_similarity, hu1, hu2]
  rw [if_pos (⟨List.cons_ne_nil _ _, List.cons_ne_nil _ _⟩ :
    ([[PyVal.vstr (pstr "x")]] ≠ [] ∧ [[PyVal.vstr (pstr "y")]] ≠ []))]
  simp only [List.filterMap_cons, List.filterMap_nil, hloop, Option.map_some']
  rw [if_pos (List.cons_ne_nil _ _)]
  rfl
